import Mathlib

/-! # Bazooka orchestration: the concurrent Runner and the pipeline tail of `main`

A shallow embedding of `orchestration/runner.go` (`Runner.Run`, `runContainer`,
`listServices`) and of the part of `orchestration/main.go` that follows the Build stage
(selection of the variants to run, handling of the Run result, persistence of the
variants, aggregation of the job status).

The container runtime, the file system and the Mongo connector are external
collaborators.  They are embedded as records of state-passing functions over an arbitrary
state type, so every theorem holds for every behaviour of the collaborator.  Each
operation of the embedded code also appends an event to a trace, which is what the
statements about "which calls were made, in which order" talk about.

`main.go` and `runner.go` are two revisions: `main` builds a Runner that carries the
variant records, `runner.go` one that carries built images only.  The recording of a
variant's status by the Runner of `main` is therefore modelled from the specification, on
top of the task and the fan-in of `runner.go`.
-/

namespace Bazooka

/-! ## Data model -/

/-- A Go `error` value that is not nil; `Option GoError` is a Go `error`. -/
abbrev GoError := String

/-- Handle of a container owned by the runtime (`*docker.Container`); `id` is what
`container.ID()` returns. -/
structure Container where
  id : String
deriving DecidableEq, Repr

/-- The fields of `docker.RunOptions` that `runContainer` sets; a field the code leaves
out has its Go zero value (`""`, the nil slice). -/
structure RunOptions where
  Name : String
  Image : String
  Links : List String
  Detach : Bool
deriving DecidableEq, Repr

/-- The fields of `docker.RemoveOptions`. -/
structure RemoveOptions where
  Force : Bool
  RemoveVolumes : Bool
deriving DecidableEq, Repr

/-- `BuiltImage`: the declaration is not part of the sources; `runContainer` reads the
two fields `VariantID` (printed with `%d`, hence an integer) and `Image`. -/
structure BuiltImage where
  VariantID : Int
  Image : String
deriving DecidableEq, Repr

/-- The environment map `map[string]string`, as an association list. -/
abbrev Env := List (String × String)

/-- Indexing a Go map: the zero value `""` when the key is absent. -/
def envGet (env : Env) (key : String) : String :=
  (env.lookup key).getD ""

def BazookaEnvProjectID : String := "BZK_PROJECT_ID"

def BazookaEnvJobID : String := "BZK_JOB_ID"

/-- What `os.Open` followed by the `bufio.Scanner` loop observes of a file. -/
inductive OpenResult where
  /-- `os.Open` fails with an error for which `os.IsNotExist` holds. -/
  | notExist (e : GoError)
  /-- `os.Open` fails with any other error. -/
  | openFailed (e : GoError)
  /-- `os.Open` succeeds; `scanner.Scan()` yields `lines` in this order and then stops,
  with `scanner.Err()` equal to `scanErr`. -/
  | opened (lines : List String) (scanErr : Option GoError)
deriving DecidableEq, Repr

/-- The collaborators of one `runContainer` task: the file system and the container
runtime, as state-passing functions over the state `σ` of the outside world. -/
structure Docker (σ : Type) where
  openFile : σ → String → σ × OpenResult
  run : σ → RunOptions → σ × Except GoError Container
  logs : σ → Container → String → σ
  wait : σ → Container → σ × Except GoError Int
  remove : σ → Container → RemoveOptions → σ × Option GoError

deriving instance DecidableEq for Except

/-- One observable action of a task, with the answer it received. -/
inductive Event where
  | openFile (path : String) (r : OpenResult)
  | run (opts : RunOptions) (r : Except GoError Container)
  | logs (c : Container) (tag : String)
  | wait (c : Container) (r : Except GoError Int)
  | remove (c : Container) (opts : RemoveOptions) (r : Option GoError)
  /-- `errChan <- e`. -/
  | sendErr (e : GoError)
  /-- `successChan <- b`. -/
  | sendResult (b : Bool)
deriving DecidableEq

/-! ## Formatting -/

/-- Decimal digits of a natural number, most significant first; `0` prints as `0`. -/
def natDecimal (n : Nat) : List Char :=
  Nat.toDigits 10 n

/-- The verb `%d` of `fmt.Sprintf` on an integer. -/
def fmtD (i : Int) : String :=
  match i with
  | Int.ofNat n => String.mk (natDecimal n)
  | Int.negSucc n => String.mk (Char.ofNat 45 :: natDecimal (n + 1))

/-- `fmt.Sprintf("%s/work/%d/services", BazookaInput, buildImage.VariantID)`; the constant
`BazookaInput` is declared outside the sources and is a parameter. -/
def servicesFilePath (bazookaInput : String) (buildImage : BuiltImage) : String :=
  bazookaInput ++ "/work/" ++ fmtD buildImage.VariantID ++ "/services"

/-- `fmt.Sprintf("service-%s-%s-%d", env[BazookaEnvProjectID], env[BazookaEnvJobID],
buildImage.VariantID)`. -/
def serviceName (env : Env) (buildImage : BuiltImage) : String :=
  "service-" ++ envGet env BazookaEnvProjectID ++ "-" ++ envGet env BazookaEnvJobID ++ "-"
    ++ fmtD buildImage.VariantID

/-- `fmt.Sprintf("%s:%s", name, service)`. -/
def linkEntry (name service : String) : String :=
  name ++ ":" ++ service

/-- The error built when the main container exits with 42. -/
def runFailedError (c : Container) : GoError :=
  "Run failed\n Check Docker container logs, id is " ++ c.id ++ "\n"

/-- The options of every removal. -/
def forceRemove : RemoveOptions := { Force := true, RemoveVolumes := true }

/-! ## `listServices` -/

/-- `listServices(servicesFile)`: the empty list when the file does not exist, an error
for any other open failure or a scan failure, the scanned lines otherwise. -/
def listServices {σ : Type} (d : Docker σ) (s : σ) (servicesFile : String) :
    σ × List Event × Except GoError (List String) :=
  match d.openFile s servicesFile with
  | (s1, OpenResult.notExist e) =>
      (s1, [Event.openFile servicesFile (OpenResult.notExist e)], Except.ok [])
  | (s1, OpenResult.openFailed e) =>
      (s1, [Event.openFile servicesFile (OpenResult.openFailed e)], Except.error e)
  | (s1, OpenResult.opened lines none) =>
      (s1, [Event.openFile servicesFile (OpenResult.opened lines none)], Except.ok lines)
  | (s1, OpenResult.opened lines (some e)) =>
      (s1, [Event.openFile servicesFile (OpenResult.opened lines (some e))], Except.error e)

/-! ## `runContainer` -/

/-- The loop `for _, service := range servicesList` of `runContainer`: the link entry is
appended before the container is started; a failed start ends the task. -/
def startServices {σ : Type} (d : Docker σ) (env : Env) (buildImage : BuiltImage) :
    List String → σ → List Container → List String →
      σ × List Event × Except GoError (List Container × List String)
  | [], s, serviceContainers, containerLinks =>
      (s, [], Except.ok (serviceContainers, containerLinks))
  | service :: rest, s, serviceContainers, containerLinks =>
      let name := serviceName env buildImage
      let containerLinks1 := containerLinks ++ [linkEntry name service]
      let opts : RunOptions := { Name := name, Image := service, Links := [], Detach := true }
      match d.run s opts with
      | (s1, Except.error err) => (s1, [Event.run opts (Except.error err)], Except.error err)
      | (s1, Except.ok serviceContainer) =>
          match startServices d env buildImage rest s1
              (serviceContainers ++ [serviceContainer]) containerLinks1 with
          | (s2, evs, r) => (s2, Event.run opts (Except.ok serviceContainer) :: evs, r)

/-- The loop `for _, serviceContainer := range serviceContainers` of `runContainer`. -/
def removeServices {σ : Type} (d : Docker σ) :
    List Container → σ → σ × List Event × Option GoError
  | [], s => (s, [], none)
  | serviceContainer :: rest, s =>
      match d.remove s serviceContainer forceRemove with
      | (s1, some err) => (s1, [Event.remove serviceContainer forceRemove (some err)], some err)
      | (s1, none) =>
          match removeServices d rest s1 with
          | (s2, evs, r) => (s2, Event.remove serviceContainer forceRemove none :: evs, r)

/-- Lines 101 to 120 of `runContainer`: removal of the main container, removal of the
service containers, report of `success` on the result channel. -/
def teardown {σ : Type} (d : Docker σ) (container : Container)
    (serviceContainers : List Container) (success : Bool) (s : σ) : σ × List Event :=
  match d.remove s container forceRemove with
  | (s1, some err) =>
      (s1, [Event.remove container forceRemove (some err), Event.sendErr err])
  | (s1, none) =>
      match removeServices d serviceContainers s1 with
      | (s2, evs, some err) =>
          (s2, Event.remove container forceRemove none :: (evs ++ [Event.sendErr err]))
      | (s2, evs, none) =>
          (s2, Event.remove container forceRemove none :: (evs ++ [Event.sendResult success]))

/-- The body of `runContainer` after the main container has exited: classification of the
exit code (`success` starts as `true`), then the teardown. -/
def finishContainer {σ : Type} (d : Docker σ) (container : Container)
    (serviceContainers : List Container) (exitCode : Int) (s : σ) : σ × List Event :=
  if exitCode ≠ 0 then
    if exitCode = 42 then
      (s, [Event.sendErr (runFailedError container)])
    else
      teardown d container serviceContainers false s
  else
    teardown d container serviceContainers true s

/-- The body of `runContainer` once the services are started: start of the main
container, logs, wait. -/
def runMain {σ : Type} (d : Docker σ) (buildImage : BuiltImage)
    (serviceContainers : List Container) (containerLinks : List String) (s : σ) :
    σ × List Event :=
  let opts : RunOptions :=
    { Name := "", Image := buildImage.Image, Links := containerLinks, Detach := true }
  match d.run s opts with
  | (s1, Except.error err) => (s1, [Event.run opts (Except.error err), Event.sendErr err])
  | (s1, Except.ok container) =>
      let s2 := d.logs s1 container buildImage.Image
      match d.wait s2 container with
      | (s3, Except.error err) =>
          (s3, [Event.run opts (Except.ok container), Event.logs container buildImage.Image,
                Event.wait container (Except.error err), Event.sendErr err])
      | (s3, Except.ok exitCode) =>
          match finishContainer d container serviceContainers exitCode s3 with
          | (s4, evs) =>
              (s4, [Event.run opts (Except.ok container), Event.logs container buildImage.Image,
                    Event.wait container (Except.ok exitCode)] ++ evs)

/-- `runContainer(client, buildImage, env, successChan, errChan)`: the state of the
outside world after the task and the trace of its actions, the sends on the two channels
included. -/
def runContainer {σ : Type} (d : Docker σ) (bazookaInput : String) (env : Env)
    (buildImage : BuiltImage) (s : σ) : σ × List Event :=
  match listServices d s (servicesFilePath bazookaInput buildImage) with
  | (s1, evs, Except.error err) => (s1, evs ++ [Event.sendErr err])
  | (s1, evs, Except.ok servicesList) =>
      match startServices d env buildImage servicesList s1 [] [] with
      | (s2, evs2, Except.error err) => (s2, evs ++ evs2 ++ [Event.sendErr err])
      | (s2, evs2, Except.ok (serviceContainers, containerLinks)) =>
          match runMain d buildImage serviceContainers containerLinks s2 with
          | (s3, evs3) => (s3, evs ++ evs2 ++ evs3)

/-! ## `Runner.Run` -/

/-- A value received by the fan-in loop of `Run`, from either channel. -/
inductive Msg where
  /-- Received from `successChanRun`. -/
  | result (b : Bool)
  /-- Received from `errChanRun`. -/
  | err (e : GoError)
deriving DecidableEq, Repr

/-- The value an event puts on a channel, if it is a send. -/
def Event.msg : Event → Option Msg
  | Event.sendResult b => some (Msg.result b)
  | Event.sendErr e => some (Msg.err e)
  | _ => none

/-- What a trace sends on the two channels, in order. -/
def sent (trace : List Event) : List Msg :=
  trace.filterMap Event.msg

/-- The options of a container start, if the event is one. -/
def Event.runOpts : Event → Option RunOptions
  | Event.run opts _ => some opts
  | _ => none

/-- The container starts a trace requests, in order. -/
def runRequests (trace : List Event) : List RunOptions :=
  trace.filterMap Event.runOpts

/-- The container an event started, if it is a successful start. -/
def Event.started : Event → Option Container
  | Event.run _ (Except.ok c) => some c
  | _ => none

/-- The containers a trace started, in order. -/
def startedContainers (trace : List Event) : List Container :=
  trace.filterMap Event.started

/-- The container and options of a removal, if the event is one. -/
def Event.removed : Event → Option (Container × RemoveOptions)
  | Event.remove c opts _ => some (c, opts)
  | _ => none

/-- The removals a trace performs, in order. -/
def removals (trace : List Event) : List (Container × RemoveOptions) :=
  trace.filterMap Event.removed

/-- The exit code an event observes, if it is a wait that returned one. -/
def Event.exitCode : Event → Option Int
  | Event.wait _ (Except.ok code) => some code
  | _ => none

/-- The exit codes a trace observes, in order. -/
def exitCodes (trace : List Event) : List Int :=
  trace.filterMap Event.exitCode

/-- Whether the event is a runtime or file operation that failed (a manifest that does
not exist is not a failure). -/
def Event.failed : Event → Bool
  | Event.openFile _ (OpenResult.openFailed _) => true
  | Event.openFile _ (OpenResult.opened _ (some _)) => true
  | Event.run _ (Except.error _) => true
  | Event.wait _ (Except.error _) => true
  | Event.remove _ _ (some _) => true
  | _ => false

/-- The services a manifest declares: what `listServices` returns without error. -/
def declared : OpenResult → List String
  | OpenResult.opened lines none => lines
  | _ => []

/-- The options `runContainer` starts the container of `service` with. -/
def serviceOpts (env : Env) (buildImage : BuiltImage) (service : String) : RunOptions :=
  { Name := serviceName env buildImage, Image := service, Links := [], Detach := true }

/-- The options `runContainer` starts the main container with. -/
def mainOpts (buildImage : BuiltImage) (containerLinks : List String) : RunOptions :=
  { Name := "", Image := buildImage.Image, Links := containerLinks, Detach := true }

/-- How a call of `Run` ends. -/
inductive RunOutcome where
  /-- `Run` returns `(success, err)`. -/
  | returned (success : Bool) (err : Option GoError)
  /-- `Run` waits in the `select` and no task will ever send: it does not return. -/
  | blocked
deriving DecidableEq, Repr

/-- The loop `for { select ... }` of `Run`.  The third argument is the sequence of values
the `select` receives, in the order the tasks deliver them; when it is exhausted no task
is left to send and the `select` waits for ever.  `remainingRuns` is a Go `int`. -/
def fanIn : Int → Bool → List Msg → RunOutcome
  | _, _, [] => RunOutcome.blocked
  | _, _, Msg.err err :: _ => RunOutcome.returned false (some err)
  | remainingRuns, success, Msg.result result :: rest =>
      let success1 := success || result
      let remainingRuns1 := remainingRuns - 1
      if remainingRuns1 = 0 then RunOutcome.returned success1 none
      else fanIn remainingRuns1 success1 rest

/-- `(r *Runner) Run()`: `newDocker` is the result of `docker.NewDocker(DockerEndpoint)`,
`deliveries` the values the started tasks deliver, in delivery order. -/
def Run (newDocker : Option GoError) (buildImages : List BuiltImage)
    (deliveries : List Msg) : RunOutcome :=
  match newDocker with
  | some err => RunOutcome.returned false (some err)
  | none => fanIn (buildImages.length : Int) false deliveries

/-- One started task: the image it runs and the state of the outside world it starts
from.  The runtime is shared and the tasks interleave freely; what a task observes of the
others is part of the arbitrary runtime and of this arbitrary state. -/
abbrev Task (σ : Type) := BuiltImage × σ

/-- The trace of one task. -/
def taskTrace {σ : Type} (d : Docker σ) (bazookaInput : String) (env : Env)
    (t : Task σ) : List Event :=
  (runContainer d bazookaInput env t.1 t.2).2

/-- The values the tasks of a batch send, task by task. -/
def batchMsgs {σ : Type} (d : Docker σ) (bazookaInput : String) (env : Env)
    (tasks : List (Task σ)) : List Msg :=
  tasks.flatMap (fun t => sent (taskTrace d bazookaInput env t))

/-! ## `main` after the Build stage -/

/-- Modelled from the spec: `lib.JobStatus` of package `commons`, which is not among the
sources.  The spec gives the enumeration Running, Success, Failed, Errored, "plus an
implicit pending pre-state" for a variant; `unset` is that pre-state, the value of a
status nobody assigned. -/
inductive JobStatus where
  | JOB_RUNNING
  | JOB_SUCCESS
  | JOB_FAILED
  | JOB_ERRORED
  | unset
deriving DecidableEq, Repr

/-- The fields of `lib.Variant` that `main` reads after the Build stage; `Completed` is a
timestamp. -/
structure Variant where
  ID : String
  Status : JobStatus
  Completed : Nat
deriving DecidableEq, Repr

/-- `variantData`: the parsed variant with its persisted record. -/
structure variantData where
  variant : Variant
deriving DecidableEq, Repr

/-- The two operations of the Mongo connector that `main` calls after the Build stage, as
state-passing functions over the state `μ` of the store.  The `time.Now()` argument of
`FinishJob` is left out. -/
structure MongoConnector (μ : Type) where
  FinishVariant : μ → String → JobStatus → Nat → μ × Option GoError
  FinishJob : μ → String → JobStatus → μ × Option GoError

/-- One call of the connector, as made by `main`. -/
inductive DbCall where
  | FinishVariant (id : String) (status : JobStatus) (completed : Nat)
  | FinishJob (jobID : String) (status : JobStatus)
deriving DecidableEq, Repr

/-- Lines 156 to 165 of `main`: an Errored variant is persisted with `FinishVariant`, every
other variant is appended to `variantsToBuild`.  `Except.error` is `log.Fatal`. -/
def selectVariants {μ : Type} (m : MongoConnector μ) :
    List variantData → μ → List variantData →
      μ × List DbCall × Except GoError (List variantData)
  | [], s, variantsToBuild => (s, [], Except.ok variantsToBuild)
  | vd :: rest, s, variantsToBuild =>
      match vd.variant.Status with
      | JobStatus.JOB_ERRORED =>
          match m.FinishVariant s vd.variant.ID JobStatus.JOB_ERRORED vd.variant.Completed with
          | (s1, some err) =>
              (s1, [DbCall.FinishVariant vd.variant.ID JobStatus.JOB_ERRORED vd.variant.Completed],
                Except.error err)
          | (s1, none) =>
              match selectVariants m rest s1 variantsToBuild with
              | (s2, calls, r) =>
                  (s2, DbCall.FinishVariant vd.variant.ID JobStatus.JOB_ERRORED
                        vd.variant.Completed :: calls, r)
      | _ => selectVariants m rest s (variantsToBuild ++ [vd])

/-- Lines 154 to 172 of `main`: the list handed to the Runner. -/
def variantsForRunner {μ : Type} (m : MongoConnector μ) (parsedVariants : List variantData)
    (s : μ) : μ × List DbCall × Except GoError (List variantData) :=
  selectVariants m parsedVariants s []

/-- Lines 174 to 181 of `main`: what `main` does with the error returned by `Run`. -/
def afterRun {μ : Type} (m : MongoConnector μ) (env : Env) (err : Option GoError) (s : μ) :
    μ × List DbCall × Except GoError Unit :=
  match err with
  | none => (s, [], Except.ok ())
  | some e =>
      match m.FinishJob s (envGet env BazookaEnvJobID) JobStatus.JOB_ERRORED with
      | (s1, some mongoErr) =>
          (s1, [DbCall.FinishJob (envGet env BazookaEnvJobID) JobStatus.JOB_ERRORED],
            Except.error mongoErr)
      | (s1, none) =>
          (s1, [DbCall.FinishJob (envGet env BazookaEnvJobID) JobStatus.JOB_ERRORED],
            Except.error e)

/-- Lines 183 to 187 of `main`: every variant that was run is persisted with the status
its record holds. -/
def finishVariants {μ : Type} (m : MongoConnector μ) :
    List variantData → μ → μ × List DbCall × Except GoError Unit
  | [], s => (s, [], Except.ok ())
  | vd :: rest, s =>
      match m.FinishVariant s vd.variant.ID vd.variant.Status vd.variant.Completed with
      | (s1, some err) =>
          (s1, [DbCall.FinishVariant vd.variant.ID vd.variant.Status vd.variant.Completed],
            Except.error err)
      | (s1, none) =>
          match finishVariants m rest s1 with
          | (s2, calls, r) =>
              (s2, DbCall.FinishVariant vd.variant.ID vd.variant.Status vd.variant.Completed
                    :: calls, r)

/-- The message of `log.Fatal` for a variant without a terminal status (the `%v` rendering
of the variant is left out). -/
def noStatusError : GoError := "Found a variant without a status"

/-- Lines 194 to 205 of `main`: the three counters, or `log.Fatal` at the first variant
whose status is none of Errored, Success, Failed.  The counters are Go `int`s bounded by
the length of the slice. -/
def countStatuses : List variantData → Nat → Nat → Nat → Except GoError (Nat × Nat × Nat)
  | [], errorCount, successCount, failCount => Except.ok (errorCount, successCount, failCount)
  | vd :: rest, errorCount, successCount, failCount =>
      match vd.variant.Status with
      | JobStatus.JOB_ERRORED => countStatuses rest (errorCount + 1) successCount failCount
      | JobStatus.JOB_SUCCESS => countStatuses rest errorCount (successCount + 1) failCount
      | JobStatus.JOB_FAILED => countStatuses rest errorCount successCount (failCount + 1)
      | _ => Except.error noStatusError

/-- Lines 213 to 222 of `main`: the `switch` on the counters. -/
def jobStatusOf (errorCount failCount : Nat) : JobStatus :=
  if errorCount > 0 then JobStatus.JOB_ERRORED
  else if failCount > 0 then JobStatus.JOB_FAILED
  else JobStatus.JOB_SUCCESS

/-- Lines 189 to 225 of `main`: aggregation over all parsed variants and `FinishJob`. -/
def finishJob {μ : Type} (m : MongoConnector μ) (env : Env)
    (parsedVariants : List variantData) (s : μ) : μ × List DbCall × Except GoError Unit :=
  match countStatuses parsedVariants 0 0 0 with
  | Except.error err => (s, [], Except.error err)
  | Except.ok (errorCount, _, failCount) =>
      let jobStatus := jobStatusOf errorCount failCount
      match m.FinishJob s (envGet env BazookaEnvJobID) jobStatus with
      | (s1, some err) =>
          (s1, [DbCall.FinishJob (envGet env BazookaEnvJobID) jobStatus], Except.error err)
      | (s1, none) =>
          (s1, [DbCall.FinishJob (envGet env BazookaEnvJobID) jobStatus], Except.ok ())

/-- The error `listServices` returns for a manifest, if any: an open failure other than
"does not exist", or a scan failure. -/
def manifestError : OpenResult → Option GoError
  | OpenResult.openFailed e => some e
  | OpenResult.opened _ (some e) => some e
  | _ => none

/-- Whether a received value comes from the result channel. -/
def Msg.isResult : Msg → Bool
  | Msg.result _ => true
  | Msg.err _ => false

/-! ## The Runner that `main` calls -/

/-- A variant handed to the Runner of `main`: its record, the task that runs it (built
image and state of the outside world) and the time at which that task finishes. -/
structure ReadyVariant (σ : Type) where
  vd : variantData
  task : Task σ
  finishedAt : Nat

/-- Modelled from the spec: the Runner that `main` builds (`Runner{Variants,
ArtifactsFolderBase, Env, Mongo}`, `Run(logger) error`) is not among the sources;
`runner.go` is another revision (`Runner{BuildImages, Env}`, `Run() (bool, error)`) that
holds no variant record.  The spec (4.2 and 7) has the task classify the exit code of the
main container and record the outcome, with the completion time, in the shared variant
record as it finishes: 0 is a succeeded run, an ordinary nonzero code is "recorded as
Failed status", and the sentinel 42 is a fatal error of the whole Run, for which no status
is given. -/
def recordOutcome (v : Variant) (exitCode : Int) (finishedAt : Nat) : Variant :=
  if exitCode = 0 then
    { ID := v.ID, Status := JobStatus.JOB_SUCCESS, Completed := finishedAt }
  else if exitCode = 42 then v
  else { ID := v.ID, Status := JobStatus.JOB_FAILED, Completed := finishedAt }

/-- Modelled from the spec: the record of a variant once its task has finished (part of
the missing Runner of `main`).  The task is `runContainer`, whose steps are the ones the
spec lists for the per-variant execution; a task that observed no exit code, because an
operation failed before the wait returned, leaves the record as it was. -/
def finishedRecord {σ : Type} (d : Docker σ) (bazookaInput : String) (env : Env)
    (rv : ReadyVariant σ) : variantData :=
  match exitCodes (taskTrace d bazookaInput env rv.task) with
  | [] => rv.vd
  | code :: _ => { variant := recordOutcome rv.vd.variant code rv.finishedAt }

/-- How a call of the Runner of `main` ends. -/
inductive VariantRunOutcome where
  /-- `Run` returns a non-nil error. -/
  | failed (err : GoError)
  /-- `Run` returns nil; `variants` are the shared records as `main` then reads them. -/
  | finished (variants : List variantData)
  /-- `Run` does not return. -/
  | blocked
deriving DecidableEq, Repr

/-- Modelled from the spec: `Run` of the missing Runner of `main`, `Run(variants, env) →
error`.  Fan-out and fan-in are those of `runner.go`, which the spec describes: on an
error `Run` returns it at once (the records of the tasks still in flight are not
specified, and `main` stops without reading them); when as many results as variants have
arrived `Run` returns nil, every task has reported and so has recorded its outcome. -/
def runVariants {σ : Type} (d : Docker σ) (bazookaInput : String) (env : Env)
    (newDocker : Option GoError) (variants : List (ReadyVariant σ))
    (deliveries : List Msg) : VariantRunOutcome :=
  match Run newDocker (variants.map (fun rv => rv.task.1)) deliveries with
  | RunOutcome.returned _ (some err) => VariantRunOutcome.failed err
  | RunOutcome.returned _ none =>
      VariantRunOutcome.finished (variants.map (finishedRecord d bazookaInput env))
  | RunOutcome.blocked => VariantRunOutcome.blocked

/-! ## Example collaborators -/

/-- A store that accepts every call and counts them. -/
def okMongo : MongoConnector Nat where
  FinishVariant := fun s _ _ _ => (s + 1, none)
  FinishJob := fun s _ _ => (s + 1, none)

/-- A variant record with the given identifier and status. -/
def mkVariant (id : String) (status : JobStatus) : variantData :=
  { variant := { ID := id, Status := status, Completed := 0 } }

/-- An environment with a project and a job identifier. -/
def demoEnv : Env := [("BZK_PROJECT_ID", "p1"), ("BZK_JOB_ID", "j1")]

/-- A runtime in which every operation succeeds: `manifest` gives the content of each
file, `exit` the exit code of each container; a started container has the image name as
identifier and the state counts the containers started. -/
def okDocker (manifest : String → OpenResult) (exit : String → Int) : Docker Nat where
  openFile := fun s path => (s, manifest path)
  run := fun s opts => (s + 1, Except.ok { id := opts.Image })
  logs := fun s _ _ => s
  wait := fun s c => (s, Except.ok (exit c.id))
  remove := fun s _ _ => (s, none)

/-- The value of a decimal digit character; used to read a printed integer back. -/
def digitVal (c : Char) : Nat := c.toNat - 48

/-- A manifest table for examples: variant 1 declares two services, every other variant
has no manifest. -/
def demoManifest (path : String) : OpenResult :=
  if path = "/bazooka/work/1/services" then OpenResult.opened ["redis", "mongo"] none
  else OpenResult.notExist "no such file or directory"

/-- Exit codes for examples: image `imgB` exits with 7, image `imgX` with 42, every other
image with 0. -/
def demoExit (id : String) : Int :=
  if id = "imgB" then 7 else if id = "imgX" then 42 else 0

/-- Variant 1 runs image `imgA`, variant 2 image `imgB`, variant 3 image `imgX`. -/
def taskA : Task Nat := ({ VariantID := 1, Image := "imgA" }, 0)

def taskB : Task Nat := ({ VariantID := 2, Image := "imgB" }, 0)

def taskX : Task Nat := ({ VariantID := 3, Image := "imgX" }, 0)

/-- A file system in which every manifest exists and cannot be opened. -/
def deniedManifest (_ : String) : OpenResult :=
  OpenResult.openFailed "permission denied"

/-- Two variants ready to run, both with status Running: `a` runs image `imgA` (exit 0),
`b` runs image `imgB` (exit 7). -/
def readyA : ReadyVariant Nat :=
  { vd := mkVariant "a" JobStatus.JOB_RUNNING, task := taskA, finishedAt := 10 }

def readyB : ReadyVariant Nat :=
  { vd := mkVariant "b" JobStatus.JOB_RUNNING, task := taskB, finishedAt := 20 }

/-! ## Proofs -/

theorem countStatuses_terminal (vs : List variantData) :
    ∀ (e sc f : Nat),
    (∀ vd ∈ vs, vd.variant.Status = JobStatus.JOB_ERRORED ∨
        vd.variant.Status = JobStatus.JOB_SUCCESS ∨ vd.variant.Status = JobStatus.JOB_FAILED) →
    countStatuses vs e sc f = Except.ok
      (e + vs.countP (fun vd => decide (vd.variant.Status = JobStatus.JOB_ERRORED)),
       sc + vs.countP (fun vd => decide (vd.variant.Status = JobStatus.JOB_SUCCESS)),
       f + vs.countP (fun vd => decide (vd.variant.Status = JobStatus.JOB_FAILED))) := by
  induction vs with
  | nil => intro e sc f _; simp [countStatuses]
  | cons vd rest ih =>
    intro e sc f h
    have hrest : ∀ x ∈ rest, x.variant.Status = JobStatus.JOB_ERRORED ∨
        x.variant.Status = JobStatus.JOB_SUCCESS ∨ x.variant.Status = JobStatus.JOB_FAILED :=
      fun x hx => h x (List.mem_cons_of_mem _ hx)
    rcases h vd (List.mem_cons_self _ _) with hs | hs | hs
    · simp only [countStatuses, hs]
      rw [ih _ _ _ hrest]
      simp [List.countP_cons, hs]; omega
    · simp only [countStatuses, hs]
      rw [ih _ _ _ hrest]
      simp [List.countP_cons, hs]; omega
    · simp only [countStatuses, hs]
      rw [ih _ _ _ hrest]
      simp [List.countP_cons, hs]; omega

/-- C1: when every parsed variant has a terminal status, the only connector call of the
aggregation is `FinishJob` with Errored if some variant is Errored, else Failed if some
variant is Failed, else Success; the empty list gives Success.  The call is made on the
store itself: the store `main` is left with is the one `FinishJob` returns, and `main`
ends normally exactly when that call reports no error. -/
theorem C1_job_status_aggregation {μ : Type} (m : MongoConnector μ) (env : Env)
    (parsedVariants : List variantData) (s : μ)
    (h : ∀ vd ∈ parsedVariants, vd.variant.Status = JobStatus.JOB_ERRORED ∨
        vd.variant.Status = JobStatus.JOB_SUCCESS ∨ vd.variant.Status = JobStatus.JOB_FAILED) :
    (finishJob m env parsedVariants s).2.1 =
      [DbCall.FinishJob (envGet env BazookaEnvJobID)
        (if ∃ vd ∈ parsedVariants, vd.variant.Status = JobStatus.JOB_ERRORED then
            JobStatus.JOB_ERRORED
         else if ∃ vd ∈ parsedVariants, vd.variant.Status = JobStatus.JOB_FAILED then
            JobStatus.JOB_FAILED
         else JobStatus.JOB_SUCCESS)] ∧
    finishJob m env parsedVariants s =
      ((m.FinishJob s (envGet env BazookaEnvJobID)
        (if ∃ vd ∈ parsedVariants, vd.variant.Status = JobStatus.JOB_ERRORED then
            JobStatus.JOB_ERRORED
         else if ∃ vd ∈ parsedVariants, vd.variant.Status = JobStatus.JOB_FAILED then
            JobStatus.JOB_FAILED
         else JobStatus.JOB_SUCCESS)).1,
       [DbCall.FinishJob (envGet env BazookaEnvJobID)
        (if ∃ vd ∈ parsedVariants, vd.variant.Status = JobStatus.JOB_ERRORED then
            JobStatus.JOB_ERRORED
         else if ∃ vd ∈ parsedVariants, vd.variant.Status = JobStatus.JOB_FAILED then
            JobStatus.JOB_FAILED
         else JobStatus.JOB_SUCCESS)],
       match (m.FinishJob s (envGet env BazookaEnvJobID)
        (if ∃ vd ∈ parsedVariants, vd.variant.Status = JobStatus.JOB_ERRORED then
            JobStatus.JOB_ERRORED
         else if ∃ vd ∈ parsedVariants, vd.variant.Status = JobStatus.JOB_FAILED then
            JobStatus.JOB_FAILED
         else JobStatus.JOB_SUCCESS)).2 with
       | none => Except.ok ()
       | some err => Except.error err) := by
  have hc := countStatuses_terminal parsedVariants 0 0 0 h
  have hjs : jobStatusOf
      (0 + parsedVariants.countP (fun vd => decide (vd.variant.Status = JobStatus.JOB_ERRORED)))
      (0 + parsedVariants.countP (fun vd => decide (vd.variant.Status = JobStatus.JOB_FAILED))) =
      (if ∃ vd ∈ parsedVariants, vd.variant.Status = JobStatus.JOB_ERRORED then
            JobStatus.JOB_ERRORED
         else if ∃ vd ∈ parsedVariants, vd.variant.Status = JobStatus.JOB_FAILED then
            JobStatus.JOB_FAILED
         else JobStatus.JOB_SUCCESS) := by
    simp only [jobStatusOf, Nat.zero_add, gt_iff_lt, List.countP_pos_iff, decide_eq_true_eq]
  have hfull : finishJob m env parsedVariants s =
      ((m.FinishJob s (envGet env BazookaEnvJobID)
        (if ∃ vd ∈ parsedVariants, vd.variant.Status = JobStatus.JOB_ERRORED then
            JobStatus.JOB_ERRORED
         else if ∃ vd ∈ parsedVariants, vd.variant.Status = JobStatus.JOB_FAILED then
            JobStatus.JOB_FAILED
         else JobStatus.JOB_SUCCESS)).1,
       [DbCall.FinishJob (envGet env BazookaEnvJobID)
        (if ∃ vd ∈ parsedVariants, vd.variant.Status = JobStatus.JOB_ERRORED then
            JobStatus.JOB_ERRORED
         else if ∃ vd ∈ parsedVariants, vd.variant.Status = JobStatus.JOB_FAILED then
            JobStatus.JOB_FAILED
         else JobStatus.JOB_SUCCESS)],
       match (m.FinishJob s (envGet env BazookaEnvJobID)
        (if ∃ vd ∈ parsedVariants, vd.variant.Status = JobStatus.JOB_ERRORED then
            JobStatus.JOB_ERRORED
         else if ∃ vd ∈ parsedVariants, vd.variant.Status = JobStatus.JOB_FAILED then
            JobStatus.JOB_FAILED
         else JobStatus.JOB_SUCCESS)).2 with
       | none => Except.ok ()
       | some err => Except.error err) := by
    unfold finishJob
    rw [hc]
    simp only [hjs]
    rcases m.FinishJob s (envGet env BazookaEnvJobID)
      (if ∃ vd ∈ parsedVariants, vd.variant.Status = JobStatus.JOB_ERRORED then
            JobStatus.JOB_ERRORED
         else if ∃ vd ∈ parsedVariants, vd.variant.Status = JobStatus.JOB_FAILED then
            JobStatus.JOB_FAILED
         else JobStatus.JOB_SUCCESS) with ⟨s1, _ | err⟩ <;> rfl
  exact ⟨by rw [hfull], hfull⟩

/-- C1, the combinations of the specification on a concrete store: `[Success, Failed]`
gives Failed, `[Success, Errored]` and `[Failed, Errored]` give Errored,
`[Success, Success]` and the empty list give Success. -/
theorem C1_job_status_aggregation_witness :
    (finishJob okMongo demoEnv
        [mkVariant "a" JobStatus.JOB_SUCCESS, mkVariant "b" JobStatus.JOB_FAILED] 0).2.1 =
      [DbCall.FinishJob "j1" JobStatus.JOB_FAILED] ∧
    (finishJob okMongo demoEnv
        [mkVariant "a" JobStatus.JOB_SUCCESS, mkVariant "b" JobStatus.JOB_ERRORED] 0).2.1 =
      [DbCall.FinishJob "j1" JobStatus.JOB_ERRORED] ∧
    (finishJob okMongo demoEnv
        [mkVariant "a" JobStatus.JOB_FAILED, mkVariant "b" JobStatus.JOB_ERRORED] 0).2.1 =
      [DbCall.FinishJob "j1" JobStatus.JOB_ERRORED] ∧
    (finishJob okMongo demoEnv
        [mkVariant "a" JobStatus.JOB_SUCCESS, mkVariant "b" JobStatus.JOB_SUCCESS] 0).2.1 =
      [DbCall.FinishJob "j1" JobStatus.JOB_SUCCESS] ∧
    (finishJob okMongo demoEnv [] 0).2.1 = [DbCall.FinishJob "j1" JobStatus.JOB_SUCCESS] ∧
    finishJob okMongo demoEnv
        [mkVariant "a" JobStatus.JOB_SUCCESS, mkVariant "b" JobStatus.JOB_FAILED] 0 =
      (1, [DbCall.FinishJob "j1" JobStatus.JOB_FAILED], Except.ok ()) :=
  ⟨(C1_job_status_aggregation okMongo demoEnv _ 0 (by decide)).1.trans (by decide),
   (C1_job_status_aggregation okMongo demoEnv _ 0 (by decide)).1.trans (by decide),
   (C1_job_status_aggregation okMongo demoEnv _ 0 (by decide)).1.trans (by decide),
   (C1_job_status_aggregation okMongo demoEnv _ 0 (by decide)).1.trans (by decide),
   (C1_job_status_aggregation okMongo demoEnv _ 0 (by decide)).1.trans (by decide),
   (C1_job_status_aggregation okMongo demoEnv _ 0 (by decide)).2.trans (by decide)⟩

theorem selectVariants_spec {μ : Type} (m : MongoConnector μ) (vs : List variantData) :
    ∀ (s : μ) (acc toRun : List variantData),
    (selectVariants m vs s acc).2.2 = Except.ok toRun →
    toRun = acc ++ vs.filter (fun vd => decide (vd.variant.Status ≠ JobStatus.JOB_ERRORED)) ∧
    (selectVariants m vs s acc).2.1 =
      (vs.filter (fun vd => decide (vd.variant.Status = JobStatus.JOB_ERRORED))).map
        (fun vd => DbCall.FinishVariant vd.variant.ID JobStatus.JOB_ERRORED
          vd.variant.Completed) := by
  induction vs with
  | nil =>
    intro s acc toRun h
    simp only [selectVariants, Except.ok.injEq] at h
    simp [selectVariants, h]
  | cons vd rest ih =>
    intro s acc toRun h
    by_cases hs : vd.variant.Status = JobStatus.JOB_ERRORED
    · simp only [selectVariants, hs] at h ⊢
      rcases hf : m.FinishVariant s vd.variant.ID JobStatus.JOB_ERRORED vd.variant.Completed
        with ⟨s1, _ | err⟩
      · rw [hf] at h
        simp only at h
        obtain ⟨h1, h2⟩ := ih s1 acc toRun h
        simp [hs, h1, h2]
      · rw [hf] at h
        simp at h
    · have hsel : selectVariants m (vd :: rest) s acc = selectVariants m rest s (acc ++ [vd]) := by
        cases hst : vd.variant.Status <;> simp_all [selectVariants]
      rw [hsel] at h ⊢
      obtain ⟨h1, h2⟩ := ih s (acc ++ [vd]) toRun h
      simp [hs, h1, h2]

theorem selectVariants_total {μ : Type} (m : MongoConnector μ)
    (hm : ∀ s id c, (m.FinishVariant s id JobStatus.JOB_ERRORED c).2 = none)
    (vs : List variantData) :
    ∀ (s : μ) (acc : List variantData),
    ∃ toRun, (selectVariants m vs s acc).2.2 = Except.ok toRun := by
  induction vs with
  | nil => intro s acc; exact ⟨acc, rfl⟩
  | cons vd rest ih =>
    intro s acc
    by_cases hs : vd.variant.Status = JobStatus.JOB_ERRORED
    · simp only [selectVariants, hs]
      have h0 := hm s vd.variant.ID vd.variant.Completed
      rcases hf : m.FinishVariant s vd.variant.ID JobStatus.JOB_ERRORED vd.variant.Completed
        with ⟨s1, _ | err⟩
      · exact ih s1 acc
      · rw [hf] at h0; simp at h0
    · have hsel : selectVariants m (vd :: rest) s acc = selectVariants m rest s (acc ++ [vd]) := by
        cases hst : vd.variant.Status <;> simp_all [selectVariants]
      rw [hsel]
      exact ih s (acc ++ [vd])

theorem selectVariants_store {μ : Type} (m : MongoConnector μ) (vs : List variantData) :
    ∀ (s : μ) (acc : List variantData),
    (∀ toRun, (selectVariants m vs s acc).2.2 = Except.ok toRun →
      (selectVariants m vs s acc).1 =
        (vs.filter (fun vd => decide (vd.variant.Status = JobStatus.JOB_ERRORED))).foldl
          (fun st vd =>
            (m.FinishVariant st vd.variant.ID JobStatus.JOB_ERRORED vd.variant.Completed).1) s) ∧
    (∀ err, (selectVariants m vs s acc).2.2 = Except.error err →
      ∃ vd ∈ vs, vd.variant.Status = JobStatus.JOB_ERRORED ∧
        ∃ st, (m.FinishVariant st vd.variant.ID JobStatus.JOB_ERRORED
          vd.variant.Completed).2 = some err) := by
  induction vs with
  | nil =>
    intro s acc
    simp [selectVariants]
  | cons vd rest ih =>
    intro s acc
    by_cases hs : vd.variant.Status = JobStatus.JOB_ERRORED
    · rcases hf : m.FinishVariant s vd.variant.ID JobStatus.JOB_ERRORED vd.variant.Completed
        with ⟨s1, _ | e⟩
      · obtain ⟨h1, h2⟩ := ih s1 acc
        simp only [selectVariants, hs, hf]
        refine ⟨?_, ?_⟩
        · intro toRun hok
          rw [h1 toRun hok]
          simp [hs, hf]
        · intro err herr
          obtain ⟨x, hx, hxs, hst⟩ := h2 err herr
          exact ⟨x, List.mem_cons_of_mem _ hx, hxs, hst⟩
      · simp only [selectVariants, hs, hf]
        refine ⟨?_, ?_⟩
        · intro toRun hok
          simp at hok
        · intro err herr
          simp only [Except.error.injEq] at herr
          subst herr
          exact ⟨vd, List.mem_cons_self _ _, hs, s, by rw [hf]⟩
    · have hsel : selectVariants m (vd :: rest) s acc = selectVariants m rest s (acc ++ [vd]) := by
        cases hst : vd.variant.Status <;> simp_all [selectVariants]
      rw [hsel]
      obtain ⟨h1, h2⟩ := ih s (acc ++ [vd])
      refine ⟨?_, ?_⟩
      · intro toRun hok
        rw [h1 toRun hok]
        simp [hs]
      · intro err herr
        obtain ⟨x, hx, hxs, hst⟩ := h2 err herr
        exact ⟨x, List.mem_cons_of_mem _ hx, hxs, hst⟩

/-- C8: when the selection loop after Build hands a list to the Runner, that list is the
parsed variants whose status is not Errored, in their original order; the connector calls
made are exactly one `FinishVariant` with status Errored for each Errored variant, in
order; no Errored variant is in the list and every other parsed variant occurs in it as
often as among the parsed variants (once, when the parsed variants are distinct).  The
loop does hand a list over whenever no `FinishVariant` call fails.  The calls are made on
the store itself: the store the Runner starts with is the one these calls, chained in
order, return, and when the loop stops with an error that error is the reply of the store
to `FinishVariant` for an Errored variant. -/
theorem C8_partial_build_failure {μ : Type} (m : MongoConnector μ)
    (parsedVariants : List variantData) (s : μ) :
    (∀ toRun, (variantsForRunner m parsedVariants s).2.2 = Except.ok toRun →
      toRun = parsedVariants.filter
        (fun vd => decide (vd.variant.Status ≠ JobStatus.JOB_ERRORED)) ∧
      (variantsForRunner m parsedVariants s).2.1 =
        (parsedVariants.filter
          (fun vd => decide (vd.variant.Status = JobStatus.JOB_ERRORED))).map
          (fun vd => DbCall.FinishVariant vd.variant.ID JobStatus.JOB_ERRORED
            vd.variant.Completed) ∧
      toRun.Sublist parsedVariants ∧
      (∀ vd ∈ parsedVariants, vd.variant.Status = JobStatus.JOB_ERRORED → vd ∉ toRun) ∧
      (∀ vd ∈ parsedVariants, vd.variant.Status ≠ JobStatus.JOB_ERRORED →
        toRun.count vd = parsedVariants.count vd) ∧
      (parsedVariants.Nodup → ∀ vd ∈ parsedVariants,
        vd.variant.Status ≠ JobStatus.JOB_ERRORED → toRun.count vd = 1)) ∧
    ((∀ s1 id c, (m.FinishVariant s1 id JobStatus.JOB_ERRORED c).2 = none) →
      ∃ toRun, (variantsForRunner m parsedVariants s).2.2 = Except.ok toRun) ∧
    (∀ toRun, (variantsForRunner m parsedVariants s).2.2 = Except.ok toRun →
      (variantsForRunner m parsedVariants s).1 =
        (parsedVariants.filter
          (fun vd => decide (vd.variant.Status = JobStatus.JOB_ERRORED))).foldl
          (fun st vd =>
            (m.FinishVariant st vd.variant.ID JobStatus.JOB_ERRORED vd.variant.Completed).1) s) ∧
    (∀ err, (variantsForRunner m parsedVariants s).2.2 = Except.error err →
      ∃ vd ∈ parsedVariants, vd.variant.Status = JobStatus.JOB_ERRORED ∧
        ∃ st, (m.FinishVariant st vd.variant.ID JobStatus.JOB_ERRORED
          vd.variant.Completed).2 = some err) := by
  refine ⟨?_, fun hm => selectVariants_total m hm parsedVariants s [],
    (selectVariants_store m parsedVariants s []).1,
    (selectVariants_store m parsedVariants s []).2⟩
  intro toRun h
  obtain ⟨h1, h2⟩ := selectVariants_spec m parsedVariants s [] toRun h
  rw [List.nil_append] at h1
  have hcount : ∀ vd ∈ parsedVariants, vd.variant.Status ≠ JobStatus.JOB_ERRORED →
      toRun.count vd = parsedVariants.count vd := by
    intro vd _ hne
    rw [h1, List.count_filter]
    simpa using hne
  refine ⟨h1, h2, ?_, ?_, hcount, ?_⟩
  · rw [h1]; exact List.filter_sublist _
  · intro vd _ he hmem
    rw [h1, List.mem_filter] at hmem
    simp [he] at hmem
  · intro hnd vd hvd hne
    rw [hcount vd hvd hne]
    exact List.count_eq_one_of_mem hnd hvd

/-- C8 on a concrete job: of three parsed variants the second is Errored; it is persisted
as Errored and the Runner receives the first and the third, in this order. -/
theorem C8_partial_build_failure_witness :
    (variantsForRunner okMongo
        [mkVariant "a" JobStatus.JOB_RUNNING, mkVariant "b" JobStatus.JOB_ERRORED,
         mkVariant "c" JobStatus.JOB_RUNNING] 0).2.2 =
      Except.ok [mkVariant "a" JobStatus.JOB_RUNNING, mkVariant "c" JobStatus.JOB_RUNNING] ∧
    (variantsForRunner okMongo
        [mkVariant "a" JobStatus.JOB_RUNNING, mkVariant "b" JobStatus.JOB_ERRORED,
         mkVariant "c" JobStatus.JOB_RUNNING] 0).2.1 =
      [DbCall.FinishVariant "b" JobStatus.JOB_ERRORED 0] ∧
    (variantsForRunner okMongo
        [mkVariant "a" JobStatus.JOB_RUNNING, mkVariant "b" JobStatus.JOB_ERRORED,
         mkVariant "c" JobStatus.JOB_RUNNING] 0).1 = 1 :=
  have h := (C8_partial_build_failure okMongo
        [mkVariant "a" JobStatus.JOB_RUNNING, mkVariant "b" JobStatus.JOB_ERRORED,
         mkVariant "c" JobStatus.JOB_RUNNING] 0).1
      [mkVariant "a" JobStatus.JOB_RUNNING, mkVariant "c" JobStatus.JOB_RUNNING] (by decide)
  have h3 := (C8_partial_build_failure okMongo
        [mkVariant "a" JobStatus.JOB_RUNNING, mkVariant "b" JobStatus.JOB_ERRORED,
         mkVariant "c" JobStatus.JOB_RUNNING] 0).2.2.1
      [mkVariant "a" JobStatus.JOB_RUNNING, mkVariant "c" JobStatus.JOB_RUNNING] (by decide)
  ⟨by decide, h.2.1.trans (by decide), h3.trans (by decide)⟩

/-! ### Traces of the loops of `runContainer` -/

theorem sent_append (a b : List Event) : sent (a ++ b) = sent a ++ sent b := by
  simp [sent, List.filterMap_append]

theorem runRequests_append (a b : List Event) :
    runRequests (a ++ b) = runRequests a ++ runRequests b := by
  simp [runRequests, List.filterMap_append]

theorem startedContainers_append (a b : List Event) :
    startedContainers (a ++ b) = startedContainers a ++ startedContainers b := by
  simp [startedContainers, List.filterMap_append]

theorem removals_append (a b : List Event) : removals (a ++ b) = removals a ++ removals b := by
  simp [removals, List.filterMap_append]

theorem exitCodes_append (a b : List Event) :
    exitCodes (a ++ b) = exitCodes a ++ exitCodes b := by
  simp [exitCodes, List.filterMap_append]

theorem startServices_trace {σ : Type} (d : Docker σ) (env : Env) (img : BuiltImage)
    (services : List String) :
    ∀ (s : σ) (cs : List Container) (links : List String),
      sent (startServices d env img services s cs links).2.1 = [] ∧
      removals (startServices d env img services s cs links).2.1 = [] ∧
      exitCodes (startServices d env img services s cs links).2.1 = [] ∧
      runRequests (startServices d env img services s cs links).2.1 <+:
        services.map (serviceOpts env img) ∧
      (∀ cs1 links1,
        (startServices d env img services s cs links).2.2 = Except.ok (cs1, links1) →
        links1 = links ++ services.map (linkEntry (serviceName env img)) ∧
        cs1 = cs ++ startedContainers (startServices d env img services s cs links).2.1 ∧
        runRequests (startServices d env img services s cs links).2.1 =
          services.map (serviceOpts env img) ∧
        (startedContainers (startServices d env img services s cs links).2.1).length =
          services.length ∧
        ∀ ev ∈ (startServices d env img services s cs links).2.1, ev.failed = false) ∧
      (∀ e, (startServices d env img services s cs links).2.2 = Except.error e →
        ∃ opts, Event.run opts (Except.error e) ∈
          (startServices d env img services s cs links).2.1) := by
  induction services with
  | nil =>
    intro s cs links
    simp [startServices, sent, removals, exitCodes, runRequests, startedContainers]
  | cons service rest ih =>
    intro s cs links
    rcases hr : d.run s (serviceOpts env img service) with ⟨s1, e | c⟩
    · simp [startServices, serviceOpts] at hr ⊢
      simp [hr, sent, removals, exitCodes, runRequests, Event.msg, Event.removed,
        Event.exitCode, Event.runOpts]
    · obtain ⟨h1, h2, h3, h4, h5, h6⟩ :=
        ih s1 (cs ++ [c]) (links ++ [linkEntry (serviceName env img) service])
      simp only [startServices, serviceOpts] at hr ⊢
      simp only [hr]
      refine ⟨?_, ?_, ?_, ?_, ?_, ?_⟩
      · simpa [sent, Event.msg] using h1
      · simpa [removals, Event.removed] using h2
      · simpa [exitCodes, Event.exitCode] using h3
      · simpa [runRequests, Event.runOpts, serviceOpts] using h4
      · intro cs1 links1 hok
        obtain ⟨a1, a2, a3, a4, a5⟩ := h5 cs1 links1 hok
        refine ⟨?_, ?_, ?_, ?_, ?_⟩
        · simpa using a1
        · simpa [startedContainers, Event.started] using a2
        · simpa [runRequests, Event.runOpts, serviceOpts] using a3
        · simpa [startedContainers, Event.started] using a4
        · intro ev hev
          rcases List.mem_cons.mp hev with h | h
          · subst h; rfl
          · exact a5 ev h
      · intro e he
        obtain ⟨opts, ho⟩ := h6 e he
        exact ⟨opts, List.mem_cons_of_mem _ ho⟩

theorem removeServices_trace {σ : Type} (d : Docker σ) (cs : List Container) :
    ∀ (s : σ),
      sent (removeServices d cs s).2.1 = [] ∧
      runRequests (removeServices d cs s).2.1 = [] ∧
      startedContainers (removeServices d cs s).2.1 = [] ∧
      exitCodes (removeServices d cs s).2.1 = [] ∧
      ((removeServices d cs s).2.2 = none →
        removals (removeServices d cs s).2.1 = cs.map (fun c => (c, forceRemove)) ∧
        ∀ ev ∈ (removeServices d cs s).2.1, ev.failed = false) ∧
      (∀ c o e, Event.remove c o (some e) ∈ (removeServices d cs s).2.1 →
        (removeServices d cs s).2.2 = some e) ∧
      (∀ e, (removeServices d cs s).2.2 = some e →
        ∃ c, Event.remove c forceRemove (some e) ∈ (removeServices d cs s).2.1) := by
  induction cs with
  | nil =>
    intro s
    simp [removeServices, sent, removals, exitCodes, runRequests, startedContainers]
  | cons c rest ih =>
    intro s
    rcases hr : d.remove s c forceRemove with ⟨s1, _ | e⟩
    · obtain ⟨h1, h2, h3, h4, h5, h6, h7⟩ := ih s1
      simp only [removeServices, hr]
      refine ⟨?_, ?_, ?_, ?_, ?_, ?_, ?_⟩
      · simpa [sent, Event.msg] using h1
      · simpa [runRequests, Event.runOpts] using h2
      · simpa [startedContainers, Event.started] using h3
      · simpa [exitCodes, Event.exitCode] using h4
      · intro hn
        obtain ⟨a1, a2⟩ := h5 hn
        refine ⟨?_, ?_⟩
        · simpa [removals, Event.removed] using a1
        · intro ev hev
          rcases List.mem_cons.mp hev with h | h
          · subst h; rfl
          · exact a2 ev h
      · intro c1 o e hmem
        rcases List.mem_cons.mp hmem with h | h
        · simp at h
        · exact h6 c1 o e h
      · intro e he
        obtain ⟨c1, hc1⟩ := h7 e he
        exact ⟨c1, List.mem_cons_of_mem _ hc1⟩
    · simp [removeServices, hr, sent, removals, exitCodes, runRequests, startedContainers,
        Event.msg, Event.removed, Event.exitCode, Event.runOpts, Event.started]
      intro c1 o e1 h1 _ h3
      exact h3.symm

theorem teardown_trace {σ : Type} (d : Docker σ) (c : Container) (cs : List Container)
    (success : Bool) (s : σ) :
    runRequests (teardown d c cs success s).2 = [] ∧
    startedContainers (teardown d c cs success s).2 = [] ∧
    exitCodes (teardown d c cs success s).2 = [] ∧
    (∃ pre m, (teardown d c cs success s).2 = pre ++ [m] ∧ sent pre = [] ∧
      ((m = Event.sendResult success ∧
          removals pre = (c, forceRemove) :: cs.map (fun x => (x, forceRemove)) ∧
          ∀ ev ∈ pre, ev.failed = false) ∨
       (∃ e c1, m = Event.sendErr e ∧ Event.remove c1 forceRemove (some e) ∈ pre))) ∧
    (∀ c1 o e, Event.remove c1 o (some e) ∈ (teardown d c cs success s).2 →
      sent (teardown d c cs success s).2 = [Msg.err e]) := by
  rcases hr : d.remove s c forceRemove with ⟨s1, _ | e⟩
  · obtain ⟨h1, h2, h3, h4, h5, h6, h7⟩ := removeServices_trace d cs s1
    rcases hrs : removeServices d cs s1 with ⟨s2, evs, _ | e⟩
    · rw [hrs] at h1 h2 h3 h4 h5 h6 h7
      simp only at h1 h2 h3 h4 h5 h6 h7
      obtain ⟨a1, a2⟩ := h5 trivial
      simp only [teardown, hr, hrs]
      refine ⟨?_, ?_, ?_, ?_, ?_⟩
      · simp [runRequests, Event.runOpts, List.filterMap_append] at h2 ⊢; exact h2
      · simp [startedContainers, Event.started, List.filterMap_append] at h3 ⊢; exact h3
      · simp [exitCodes, Event.exitCode, List.filterMap_append] at h4 ⊢; exact h4
      · refine ⟨Event.remove c forceRemove none :: evs, Event.sendResult success, by simp, ?_,
          Or.inl ⟨rfl, ?_, ?_⟩⟩
        · simpa [sent, Event.msg] using h1
        · simpa [removals, Event.removed] using a1
        · intro ev hev
          rcases List.mem_cons.mp hev with h | h
          · subst h; rfl
          · exact a2 ev h
      · intro c1 o e hmem
        simp only [List.mem_cons, List.mem_append, List.mem_singleton] at hmem
        rcases hmem with h | h | h
        · simp at h
        · have := h6 c1 o e h
          simp at this
        · simp at h
    · rw [hrs] at h1 h2 h3 h4 h5 h6 h7
      simp only at h1 h2 h3 h4 h5 h6 h7
      obtain ⟨c1, hc1⟩ := h7 e rfl
      simp only [teardown, hr, hrs]
      refine ⟨?_, ?_, ?_, ?_, ?_⟩
      · simp [runRequests, Event.runOpts, List.filterMap_append] at h2 ⊢; exact h2
      · simp [startedContainers, Event.started, List.filterMap_append] at h3 ⊢; exact h3
      · simp [exitCodes, Event.exitCode, List.filterMap_append] at h4 ⊢; exact h4
      · refine ⟨Event.remove c forceRemove none :: evs, Event.sendErr e, by simp, ?_,
          Or.inr ⟨e, c1, rfl, List.mem_cons_of_mem _ hc1⟩⟩
        simpa [sent, Event.msg] using h1
      · intro c2 o e2 hmem
        simp only [List.mem_cons, List.mem_append, List.mem_singleton] at hmem
        have hs : sent (Event.remove c forceRemove none :: (evs ++ [Event.sendErr e])) =
            [Msg.err e] := by
          simp [sent, Event.msg, List.filterMap_append] at h1 ⊢; exact h1
        rcases hmem with h | h | h
        · simp at h
        · have := h6 c2 o e2 h
          simp at this
          rw [hs, this]
        · simp at h
  · simp only [teardown, hr]
    refine ⟨by simp [runRequests, Event.runOpts], by simp [startedContainers, Event.started],
      by simp [exitCodes, Event.exitCode], ?_, ?_⟩
    · exact ⟨[Event.remove c forceRemove (some e)], Event.sendErr e, by simp,
        by simp [sent, Event.msg], Or.inr ⟨e, c, rfl, by simp⟩⟩
    · intro c1 o e1 hmem
      simp at hmem
      simp [sent, Event.msg, hmem.2.2]

theorem wait_mem_exitCodes (l : List Event) (c : Container) (code : Int)
    (h : Event.wait c (Except.ok code) ∈ l) : code ∈ exitCodes l := by
  unfold exitCodes
  rw [List.mem_filterMap]
  exact ⟨_, h, rfl⟩

theorem sent_of_last (pre : List Event) (m : Event) (h : sent pre = []) :
    sent (pre ++ [m]) = (m.msg).toList := by
  rw [sent_append, h]
  cases hm : m.msg <;> simp [sent, hm]

/-- The shape of the trace of `runMain`: one start request, one send at the very end, and
the classification of what is sent. -/
theorem runMain_trace {σ : Type} (d : Docker σ) (img : BuiltImage) (cs : List Container)
    (links : List String) (s : σ) :
    runRequests (runMain d img cs links s).2 = [mainOpts img links] ∧
    (∃ pre m, (runMain d img cs links s).2 = pre ++ [m] ∧ sent pre = [] ∧
      ((∃ main code, m = Event.sendResult (decide (code = 0)) ∧ code ≠ 42 ∧
          startedContainers pre = [main] ∧ exitCodes pre = [code] ∧
          removals pre = (main, forceRemove) :: cs.map (fun x => (x, forceRemove)) ∧
          ∀ ev ∈ pre, ev.failed = false) ∨
       (∃ e, m = Event.sendErr e ∧
          ((∃ ev ∈ pre, ev.failed = true) ∨ ∃ c, Event.wait c (Except.ok 42) ∈ pre)))) ∧
    (∀ c, Event.wait c (Except.ok 42) ∈ (runMain d img cs links s).2 →
      sent (runMain d img cs links s).2 = [Msg.err (runFailedError c)]) ∧
    (∀ c1 o e, Event.remove c1 o (some e) ∈ (runMain d img cs links s).2 →
      sent (runMain d img cs links s).2 = [Msg.err e]) := by
  rcases hr : d.run s (mainOpts img links) with ⟨s1, e | c⟩
  · simp only [mainOpts] at hr
    simp only [runMain, hr]
    refine ⟨by simp [runRequests, Event.runOpts, mainOpts], ?_, by simp, by simp⟩
    exact ⟨[Event.run (mainOpts img links) (Except.error e)], Event.sendErr e,
      by simp [mainOpts], by simp [sent, Event.msg],
      Or.inr ⟨e, rfl, Or.inl ⟨_, List.mem_singleton_self _, rfl⟩⟩⟩
  · rcases hw : d.wait (d.logs s1 c img.Image) c with ⟨s3, e | code⟩
    · simp only [mainOpts] at hr
      simp only [runMain, hr, hw]
      refine ⟨by simp [runRequests, Event.runOpts, mainOpts], ?_, by simp, by simp⟩
      exact ⟨[Event.run (mainOpts img links) (Except.ok c), Event.logs c img.Image,
          Event.wait c (Except.error e)], Event.sendErr e,
        by simp [mainOpts], by simp [sent, Event.msg],
        Or.inr ⟨e, rfl, Or.inl ⟨Event.wait c (Except.error e), by simp, rfl⟩⟩⟩
    · simp only [mainOpts] at hr
      by_cases h42 : code = 42
      · subst h42
        simp only [runMain, hr, hw, finishContainer]
        refine ⟨by simp [runRequests, Event.runOpts, mainOpts], ?_, ?_, by simp⟩
        · exact ⟨[Event.run (mainOpts img links) (Except.ok c), Event.logs c img.Image,
              Event.wait c (Except.ok 42)], Event.sendErr (runFailedError c),
            by simp [mainOpts], by simp [sent, Event.msg],
            Or.inr ⟨_, rfl, Or.inr ⟨c, by simp⟩⟩⟩
        · intro c1 hmem
          simp at hmem
          subst hmem
          simp [sent, Event.msg]
      · have hfin : finishContainer d c cs code s3 = teardown d c cs (decide (code = 0)) s3 := by
          unfold finishContainer
          by_cases h0 : code = 0
          · simp [h0]
          · simp [h0, h42]
        obtain ⟨t1, t2, t3, ⟨pre, m, tp, ts, tc⟩, t5⟩ :=
          teardown_trace d c cs (decide (code = 0)) s3
        simp only [runMain, hr, hw, hfin]
        refine ⟨?_, ?_, ?_, ?_⟩
        · simp [runRequests, Event.runOpts, mainOpts, List.filterMap_append] at t1 ⊢
          exact t1
        · refine ⟨[Event.run (mainOpts img links) (Except.ok c), Event.logs c img.Image,
              Event.wait c (Except.ok code)] ++ pre, m, by simp [tp, mainOpts], ?_, ?_⟩
          · rw [sent_append, ts]; simp [sent, Event.msg]
          · rcases tc with ⟨hm, hrem, hnf⟩ | ⟨e, c1, hm, hmem⟩
            · refine Or.inl ⟨c, code, hm, h42, ?_, ?_, ?_, ?_⟩
              · have := t2
                rw [tp, startedContainers_append] at this
                rw [startedContainers_append]
                simp [startedContainers, Event.started] at this ⊢
                exact this.1
              · have := t3
                rw [tp, exitCodes_append] at this
                rw [exitCodes_append]
                simp [exitCodes, Event.exitCode] at this ⊢
                exact this.1
              · rw [removals_append, hrem]
                simp [removals, Event.removed]
              · intro ev hev
                rcases List.mem_append.mp hev with h | h
                · simp at h
                  rcases h with h | h | h <;> subst h <;> rfl
                · exact hnf ev h
            · exact Or.inr ⟨e, hm, Or.inl ⟨_, List.mem_append_right _ hmem, rfl⟩⟩
        · intro c1 hmem
          exfalso
          have h1 := wait_mem_exitCodes _ c1 42 hmem
          rw [exitCodes_append, t3] at h1
          simp [exitCodes, Event.exitCode] at h1
          exact h42 h1.symm
        · intro c1 o e hmem
          rcases List.mem_append.mp hmem with h | h
          · simp at h
          · rw [sent_append, t5 c1 o e h]
            simp [sent, Event.msg]

theorem listServices_eq {σ : Type} (d : Docker σ) (s : σ) (path : String) :
    listServices d s path =
      ((d.openFile s path).1, [Event.openFile path (d.openFile s path).2],
        match manifestError (d.openFile s path).2 with
        | some e => Except.error e
        | none => Except.ok (declared (d.openFile s path).2)) := by
  rcases ho : d.openFile s path with ⟨s1, e | e | ⟨lines, _ | e⟩⟩ <;>
    simp [listServices, ho, manifestError, declared]

theorem failed_openFile_of_manifestError (path : String) (r : OpenResult)
    (h : manifestError r = none) : (Event.openFile path r).failed = false := by
  cases r with
  | notExist e => rfl
  | openFailed e => simp [manifestError] at h
  | opened lines se =>
    cases se with
    | none => rfl
    | some e => simp [manifestError] at h

/-- The shape of the trace of `runContainer`: it opens the manifest first, its start
requests are a prefix of "one per declared service, then the main container", it sends
exactly one value, as its last action, and what it sends is classified. -/
theorem runContainer_trace {σ : Type} (d : Docker σ) (bazookaInput : String) (env : Env)
    (img : BuiltImage) (s : σ) :
    (∃ rest, (runContainer d bazookaInput env img s).2 =
      Event.openFile (servicesFilePath bazookaInput img)
        (d.openFile s (servicesFilePath bazookaInput img)).2 :: rest) ∧
    (∀ e, manifestError (d.openFile s (servicesFilePath bazookaInput img)).2 = some e →
      (runContainer d bazookaInput env img s).2 =
        [Event.openFile (servicesFilePath bazookaInput img)
          (d.openFile s (servicesFilePath bazookaInput img)).2, Event.sendErr e]) ∧
    (runRequests (runContainer d bazookaInput env img s).2 <+:
      (declared (d.openFile s (servicesFilePath bazookaInput img)).2).map (serviceOpts env img)
        ++ [mainOpts img
              ((declared (d.openFile s (servicesFilePath bazookaInput img)).2).map
                (linkEntry (serviceName env img)))]) ∧
    (∃ pre m, (runContainer d bazookaInput env img s).2 = pre ++ [m] ∧ sent pre = [] ∧
      ((∃ containers main code, m = Event.sendResult (decide (code = 0)) ∧ code ≠ 42 ∧
          startedContainers pre = containers ++ [main] ∧
          containers.length =
            (declared (d.openFile s (servicesFilePath bazookaInput img)).2).length ∧
          exitCodes pre = [code] ∧
          removals pre = (main, forceRemove) :: containers.map (fun x => (x, forceRemove)) ∧
          runRequests pre =
            (declared (d.openFile s (servicesFilePath bazookaInput img)).2).map
                (serviceOpts env img)
              ++ [mainOpts img
                    ((declared (d.openFile s (servicesFilePath bazookaInput img)).2).map
                      (linkEntry (serviceName env img)))] ∧
          ∀ ev ∈ pre, ev.failed = false) ∨
       (∃ e, m = Event.sendErr e ∧
          ((∃ ev ∈ pre, ev.failed = true) ∨ ∃ c, Event.wait c (Except.ok 42) ∈ pre)))) ∧
    (∀ c, Event.wait c (Except.ok 42) ∈ (runContainer d bazookaInput env img s).2 →
      sent (runContainer d bazookaInput env img s).2 = [Msg.err (runFailedError c)]) ∧
    (∀ c1 o e, Event.remove c1 o (some e) ∈ (runContainer d bazookaInput env img s).2 →
      sent (runContainer d bazookaInput env img s).2 = [Msg.err e]) := by
  generalize hpath : servicesFilePath bazookaInput img = path
  have hl := listServices_eq d s path
  generalize hr : (d.openFile s path).2 = r at hl ⊢
  generalize hs1 : (d.openFile s path).1 = s1 at hl
  cases hme : manifestError r with
  | some e =>
    rw [hme] at hl
    simp only [runContainer, hpath, hl]
    refine ⟨⟨_, rfl⟩, ?_, ?_, ?_, ?_, ?_⟩
    · intro e1 he1
      simp at he1
      simp [he1]
    · simp [runRequests, Event.runOpts]
    · refine ⟨[Event.openFile path r], Event.sendErr e, by simp, by simp [sent, Event.msg],
        Or.inr ⟨e, rfl, Or.inl ⟨Event.openFile path r, by simp, ?_⟩⟩⟩
      cases r with
      | notExist e0 => simp [manifestError] at hme
      | openFailed e0 => rfl
      | opened lines se =>
        cases se with
        | none => simp [manifestError] at hme
        | some e0 => rfl
    · intro c hmem; simp at hmem
    · intro c1 o e1 hmem; simp at hmem
  | none =>
    rw [hme] at hl
    have hnf := failed_openFile_of_manifestError path r hme
    obtain ⟨a1, a2, a3, a4, a5, a6⟩ := startServices_trace d env img (declared r) s1 [] []
    rcases hss : startServices d env img (declared r) s1 [] [] with ⟨s2, evs2, e | ⟨cs, links⟩⟩
    · rw [hss] at a1 a2 a3 a4 a5 a6
      simp only at a1 a2 a3 a4 a5 a6
      obtain ⟨opts, hopts⟩ := a6 e rfl
      simp only [runContainer, hpath, hl, hss]
      refine ⟨⟨_, rfl⟩, ?_, ?_, ?_, ?_, ?_⟩
      · intro e1 he1; simp at he1
      · rw [runRequests_append, runRequests_append]
        simp only [runRequests, Event.runOpts, List.filterMap_cons, List.filterMap_nil,
          List.nil_append, List.append_nil]
        exact a4.trans (List.prefix_append _ _)
      · refine ⟨[Event.openFile path r] ++ evs2, Event.sendErr e, rfl, ?_,
          Or.inr ⟨e, rfl, Or.inl ⟨_, List.mem_append_right _ hopts, rfl⟩⟩⟩
        rw [sent_append, a1]; simp [sent, Event.msg]
      · intro c hmem
        exfalso
        have h1 := wait_mem_exitCodes _ c 42 hmem
        rw [exitCodes_append, exitCodes_append, a3] at h1
        simp [exitCodes, Event.exitCode] at h1
      · intro c1 o e1 hmem
        exfalso
        have h1 : (c1, o) ∈ removals ([Event.openFile path r] ++ evs2 ++ [Event.sendErr e]) := by
          unfold removals
          rw [List.mem_filterMap]
          exact ⟨_, hmem, rfl⟩
        rw [removals_append, removals_append, a2] at h1
        simp [removals, Event.removed] at h1
    · rw [hss] at a1 a2 a3 a4 a5 a6
      simp only at a1 a2 a3 a4 a5 a6
      obtain ⟨b1, b2, b3, b4, b5⟩ := a5 cs links rfl
      simp only [List.nil_append] at b1 b2
      obtain ⟨m1, ⟨pre, m, mp, ms, mc⟩, m3, m4⟩ := runMain_trace d img cs links s2
      rcases hrm : runMain d img cs links s2 with ⟨s3, evs3⟩
      rw [hrm] at m1 mp m3 m4
      simp only at m1 mp m3 m4
      simp only [runContainer, hpath, hl, hss, hrm]
      have hsentpre : sent ([Event.openFile path r] ++ evs2 ++ pre) = [] := by
        rw [sent_append, sent_append, a1, ms]; simp [sent, Event.msg]
      refine ⟨⟨_, rfl⟩, ?_, ?_, ?_, ?_, ?_⟩
      · intro e1 he1; simp at he1
      · rw [runRequests_append, runRequests_append, b3, m1, b1]
        simp [runRequests, Event.runOpts]
      · refine ⟨[Event.openFile path r] ++ evs2 ++ pre, m, by rw [mp]; simp, hsentpre, ?_⟩
        rcases mc with ⟨main, code, hm, h42, c1, c2, c3, c4⟩ | ⟨e, hm, hc⟩
        · refine Or.inl ⟨cs, main, code, hm, h42, ?_, ?_, ?_, ?_, ?_, ?_⟩
          · rw [startedContainers_append, startedContainers_append, c1, ← b2]
            simp [startedContainers, Event.started]
          · rw [b2]; exact b4
          · rw [exitCodes_append, exitCodes_append, a3, c2]
            simp [exitCodes, Event.exitCode]
          · rw [removals_append, removals_append, a2, c3]
            simp [removals, Event.removed]
          · have hrq : runRequests evs3 = runRequests pre := by
              rw [mp, runRequests_append, hm]
              simp [runRequests, Event.runOpts]
            rw [runRequests_append, runRequests_append, b3, ← hrq, m1, b1]
            simp [runRequests, Event.runOpts]
          · intro ev hev
            simp only [List.mem_append, List.mem_singleton] at hev
            rcases hev with (h | h) | h
            · subst h; exact hnf
            · exact b5 ev h
            · exact c4 ev h
        · refine Or.inr ⟨e, hm, ?_⟩
          rcases hc with ⟨ev, hev, hf⟩ | ⟨c, hc⟩
          · exact Or.inl ⟨ev, List.mem_append_right _ hev, hf⟩
          · exact Or.inr ⟨c, List.mem_append_right _ hc⟩
      · intro c hmem
        have hin : Event.wait c (Except.ok 42) ∈ evs3 := by
          simp only [List.mem_append, List.mem_singleton] at hmem
          rcases hmem with (h | h) | h
          · simp at h
          · exfalso
            have h1 := wait_mem_exitCodes _ c 42 h
            rw [a3] at h1
            simp at h1
          · exact h
        rw [sent_append, sent_append, a1, m3 c hin]
        simp [sent, Event.msg]
      · intro c1 o e1 hmem
        have hin : Event.remove c1 o (some e1) ∈ evs3 := by
          simp only [List.mem_append, List.mem_singleton] at hmem
          rcases hmem with (h | h) | h
          · simp at h
          · exfalso
            have h1 : (c1, o) ∈ removals evs2 := by
              unfold removals
              rw [List.mem_filterMap]
              exact ⟨_, h, rfl⟩
            rw [a2] at h1
            simp at h1
          · exact h
        rw [sent_append, sent_append, a1, m4 c1 o e1 hin]
        simp [sent, Event.msg]

/-! ### Decimal formatting is injective -/

theorem toDigitsCore_eq_digits (fuel : Nat) : ∀ (n : Nat) (ds : List Char), n < fuel →
    Nat.toDigitsCore 10 fuel n ds =
      (if n = 0 then [Nat.digitChar 0]
        else ((Nat.digits 10 n).reverse).map Nat.digitChar) ++ ds := by
  induction fuel with
  | zero => intro n ds h; omega
  | succ fuel ih =>
    intro n ds h
    simp only [Nat.toDigitsCore]
    by_cases hq : n / 10 = 0
    · have hlt : n < 10 := by omega
      have hmod : n % 10 = n := Nat.mod_eq_of_lt hlt
      rw [if_pos hq, hmod]
      by_cases h0 : n = 0
      · simp [h0]
      · rw [if_neg h0, Nat.digits_of_lt 10 n h0 hlt]
        simp
    · have h0 : n ≠ 0 := by omega
      have hlt : n / 10 < fuel := by omega
      rw [if_neg hq, ih (n / 10) _ hlt, if_neg hq, if_neg h0,
        Nat.digits_def' (by omega) (Nat.pos_of_ne_zero h0)]
      simp

theorem natDecimal_eq_digits (n : Nat) :
    natDecimal n =
      if n = 0 then [Nat.digitChar 0]
      else ((Nat.digits 10 n).reverse).map Nat.digitChar := by
  unfold natDecimal Nat.toDigits
  rw [toDigitsCore_eq_digits (n + 1) n [] (Nat.lt_succ_self n)]
  simp

theorem digitVal_digitChar : ∀ d : Nat, d < 10 → digitVal (Nat.digitChar d) = d := by
  decide

theorem digitChar_ne_minus : ∀ d : Nat, d < 10 → Nat.digitChar d ≠ Char.ofNat 45 := by
  decide

theorem map_digitVal_digits (n : Nat) :
    ((Nat.digits 10 n).map Nat.digitChar).map digitVal = Nat.digits 10 n := by
  rw [List.map_map]
  conv_rhs => rw [← List.map_id (Nat.digits 10 n)]
  apply List.map_congr_left
  intro d hd
  exact digitVal_digitChar d (Nat.digits_lt_base (by omega) hd)

/-- Reading the printed digits back gives the number. -/
theorem natDecimal_read (n : Nat) :
    Nat.ofDigits 10 (((natDecimal n).map digitVal).reverse) = n := by
  rw [natDecimal_eq_digits]
  by_cases h0 : n = 0
  · subst h0
    decide
  · rw [if_neg h0]
    simp only [List.map_reverse, List.reverse_reverse, map_digitVal_digits,
      Nat.ofDigits_digits]

theorem natDecimal_injective (n m : Nat) (h : natDecimal n = natDecimal m) : n = m := by
  rw [← natDecimal_read n, ← natDecimal_read m, h]

theorem minus_not_mem_natDecimal (n : Nat) : Char.ofNat 45 ∉ natDecimal n := by
  rw [natDecimal_eq_digits]
  by_cases h0 : n = 0
  · subst h0
    decide
  · rw [if_neg h0]
    intro hmem
    rw [List.mem_map] at hmem
    obtain ⟨d, hd, hc⟩ := hmem
    rw [List.mem_reverse] at hd
    exact digitChar_ne_minus d (Nat.digits_lt_base (by omega) hd) hc

theorem fmtD_injective (i j : Int) (h : fmtD i = fmtD j) : i = j := by
  cases i with
  | ofNat n =>
    cases j with
    | ofNat m =>
      have h1 : natDecimal n = natDecimal m := congrArg String.data h
      rw [natDecimal_injective n m h1]
    | negSucc m =>
      exfalso
      have h1 : natDecimal n = Char.ofNat 45 :: natDecimal (m + 1) := congrArg String.data h
      apply minus_not_mem_natDecimal n
      rw [h1]
      exact List.mem_cons_self _ _
  | negSucc n =>
    cases j with
    | ofNat m =>
      exfalso
      have h1 : Char.ofNat 45 :: natDecimal (n + 1) = natDecimal m := congrArg String.data h
      apply minus_not_mem_natDecimal m
      rw [← h1]
      exact List.mem_cons_self _ _
    | negSucc m =>
      have h1 : Char.ofNat 45 :: natDecimal (n + 1) = Char.ofNat 45 :: natDecimal (m + 1) :=
        congrArg String.data h
      have h2 := natDecimal_injective _ _ (List.cons.inj h1).2
      have hnm : n = m := by omega
      rw [hnm]

theorem string_append_left_cancel (a x y : String) (h : a ++ x = a ++ y) : x = y := by
  have h1 := congrArg String.data h
  rw [String.data_append, String.data_append] at h1
  exact String.ext (List.append_cancel_left h1)

theorem serviceName_injective (env : Env) (img1 img2 : BuiltImage)
    (h : serviceName env img1 = serviceName env img2) : img1.VariantID = img2.VariantID := by
  unfold serviceName at h
  exact fmtD_injective _ _ (string_append_left_cancel _ _ _ h)

/-! ### The fan-in loop -/

theorem fanIn_all_results (l : List Msg) :
    ∀ (acc : Bool), l ≠ [] → (∀ m ∈ l, ∃ b, m = Msg.result b) →
      fanIn (l.length : Int) acc l =
        RunOutcome.returned (acc || l.any (fun m => decide (m = Msg.result true))) none := by
  induction l with
  | nil => intro acc h; exact absurd rfl h
  | cons m rest ih =>
    intro acc _ hall
    obtain ⟨b, hb⟩ := hall m (List.mem_cons_self _ _)
    subst hb
    have hlen : (((Msg.result b :: rest).length : Nat) : Int) - 1 = (rest.length : Int) := by
      simp
    simp only [fanIn, hlen]
    by_cases hrest : rest = []
    · subst hrest
      cases acc <;> cases b <;> simp
    · have hne : ¬ ((rest.length : Int) = 0) := by
        intro h0
        exact hrest (List.length_eq_zero.mp (by exact_mod_cast h0))
      rw [if_neg hne, ih (acc || b) hrest (fun x hx => hall x (List.mem_cons_of_mem _ hx))]
      cases acc <;> cases b <;> simp

theorem fanIn_error (l : List Msg) :
    ∀ (n : Int) (acc : Bool), (l.length : Int) ≤ n → (∃ e, Msg.err e ∈ l) →
      ∃ e, Msg.err e ∈ l ∧ fanIn n acc l = RunOutcome.returned false (some e) := by
  induction l with
  | nil => intro n acc _ h; simp at h
  | cons m rest ih =>
    intro n acc hlen herr
    cases m with
    | err e => exact ⟨e, List.mem_cons_self _ _, by simp [fanIn]⟩
    | result b =>
      obtain ⟨e, he⟩ := herr
      have hin : Msg.err e ∈ rest := by
        rcases List.mem_cons.mp he with h | h
        · cases h
        · exact h
      have hpos : 0 < rest.length := List.length_pos_of_mem hin
      have hlen1 : ((rest.length : Nat) : Int) + 1 ≤ n := by
        simpa using hlen
      have hne : ¬ (n - 1 = 0) := by omega
      obtain ⟨e1, h1, h2⟩ := ih (n - 1) (acc || b) (by omega) ⟨e, hin⟩
      refine ⟨e1, List.mem_cons_of_mem _ h1, ?_⟩
      simp only [fanIn, if_neg hne]
      exact h2

/-! ### Batches -/

/-- Every task sends exactly one value. -/
theorem sent_taskTrace {σ : Type} (d : Docker σ) (bazookaInput : String) (env : Env)
    (t : Task σ) : ∃ m, sent (taskTrace d bazookaInput env t) = [m] := by
  obtain ⟨_, _, _, ⟨pre, m, hp, hs, hc⟩, _, _⟩ := runContainer_trace d bazookaInput env t.1 t.2
  unfold taskTrace
  rw [hp, sent_of_last pre m hs]
  rcases hc with ⟨_, _, code, hm, _⟩ | ⟨e, hm, _⟩
  · exact ⟨Msg.result (decide (code = 0)), by rw [hm]; rfl⟩
  · exact ⟨Msg.err e, by rw [hm]; rfl⟩

theorem batchMsgs_cons {σ : Type} (d : Docker σ) (bazookaInput : String) (env : Env)
    (t : Task σ) (ts : List (Task σ)) :
    batchMsgs d bazookaInput env (t :: ts) =
      sent (taskTrace d bazookaInput env t) ++ batchMsgs d bazookaInput env ts := by
  simp [batchMsgs]

theorem batchMsgs_length {σ : Type} (d : Docker σ) (bazookaInput : String) (env : Env)
    (tasks : List (Task σ)) : (batchMsgs d bazookaInput env tasks).length = tasks.length := by
  induction tasks with
  | nil => simp [batchMsgs]
  | cons t ts ih =>
    obtain ⟨m, hm⟩ := sent_taskTrace d bazookaInput env t
    rw [batchMsgs_cons, hm]
    simp [ih]

theorem mem_batchMsgs {σ : Type} (d : Docker σ) (bazookaInput : String) (env : Env)
    (tasks : List (Task σ)) (t : Task σ) (ht : t ∈ tasks) (m : Msg)
    (hm : m ∈ sent (taskTrace d bazookaInput env t)) :
    m ∈ batchMsgs d bazookaInput env tasks := by
  unfold batchMsgs
  rw [List.mem_flatMap]
  exact ⟨t, ht, hm⟩

theorem batchMsgs_eq_map {σ : Type} (d : Docker σ) (bazookaInput : String) (env : Env)
    (f : Task σ → Msg) (tasks : List (Task σ))
    (h : ∀ t ∈ tasks, sent (taskTrace d bazookaInput env t) = [f t]) :
    batchMsgs d bazookaInput env tasks = tasks.map f := by
  induction tasks with
  | nil => simp [batchMsgs]
  | cons t ts ih =>
    rw [batchMsgs_cons, h t (List.mem_cons_self _ _),
      ih (fun x hx => h x (List.mem_cons_of_mem _ hx))]
    simp

/-! ## The claims -/

/-- C2: in a batch where some task observes exit code 42, fewer results than tasks are
sent, and for every delivery order `Run` returns `false` with a non-nil error, one that a
task sent; `main` then calls `FinishJob` with status Errored and stops.  That call is made
on the store itself: the store is left as `FinishJob` returns it, and the fatal error is
the one of the store when the call fails, the one of `Run` otherwise. -/
theorem C2_sentinel_escalation {σ μ : Type} (d : Docker σ) (bazookaInput : String) (env : Env)
    (tasks : List (Task σ)) (m : MongoConnector μ) (sm : μ) (deliveries : List Msg)
    (hperm : deliveries.Perm (batchMsgs d bazookaInput env tasks))
    (h42 : ∃ t ∈ tasks, ∃ c, Event.wait c (Except.ok 42) ∈ taskTrace d bazookaInput env t) :
    (batchMsgs d bazookaInput env tasks).countP Msg.isResult < tasks.length ∧
    ∃ e, Msg.err e ∈ deliveries ∧
      Run none (tasks.map Prod.fst) deliveries = RunOutcome.returned false (some e) ∧
      (afterRun m env (some e) sm).2.1 =
        [DbCall.FinishJob (envGet env BazookaEnvJobID) JobStatus.JOB_ERRORED] ∧
      (∃ fatal, (afterRun m env (some e) sm).2.2 = Except.error fatal) ∧
      afterRun m env (some e) sm =
        ((m.FinishJob sm (envGet env BazookaEnvJobID) JobStatus.JOB_ERRORED).1,
         [DbCall.FinishJob (envGet env BazookaEnvJobID) JobStatus.JOB_ERRORED],
         Except.error
           ((m.FinishJob sm (envGet env BazookaEnvJobID) JobStatus.JOB_ERRORED).2.getD e)) := by
  obtain ⟨t, ht, c, hc⟩ := h42
  have hsent : sent (taskTrace d bazookaInput env t) = [Msg.err (runFailedError c)] :=
    (runContainer_trace d bazookaInput env t.1 t.2).2.2.2.2.1 c hc
  have hmem : Msg.err (runFailedError c) ∈ batchMsgs d bazookaInput env tasks :=
    mem_batchMsgs d bazookaInput env tasks t ht _ (by rw [hsent]; exact List.mem_singleton_self _)
  have hlen := batchMsgs_length d bazookaInput env tasks
  refine ⟨?_, ?_⟩
  · rw [← hlen]
    apply lt_of_le_of_ne (List.countP_le_length _)
    intro heq
    have := (List.countP_eq_length.mp heq) _ hmem
    simp [Msg.isResult] at this
  · have hdl : ((deliveries.length : Nat) : Int) ≤ ((tasks.map Prod.fst).length : Nat) := by
      rw [hperm.length_eq, hlen, List.length_map]
    obtain ⟨e, he, hrun⟩ := fanIn_error deliveries _ false hdl
      ⟨runFailedError c, hperm.mem_iff.mpr hmem⟩
    refine ⟨e, he, hrun, ?_, ?_, ?_⟩
    · rcases hf : m.FinishJob sm (envGet env BazookaEnvJobID) JobStatus.JOB_ERRORED
        with ⟨s1, _ | me⟩ <;> simp [afterRun, hf]
    · rcases hf : m.FinishJob sm (envGet env BazookaEnvJobID) JobStatus.JOB_ERRORED
        with ⟨s1, _ | me⟩ <;> simp [afterRun, hf]
    · rcases hf : m.FinishJob sm (envGet env BazookaEnvJobID) JobStatus.JOB_ERRORED
        with ⟨s1, _ | me⟩ <;> simp [afterRun, hf]

/-- C2 on a concrete batch: image `imgA` exits 0, image `imgX` exits 42, and the result of
the first is delivered before the error of the second. -/
theorem C2_sentinel_escalation_witness :
    (batchMsgs (okDocker demoManifest demoExit) "/bazooka" demoEnv [taskA, taskX]).countP
        Msg.isResult < [taskA, taskX].length ∧
    ∃ e, Msg.err e ∈ [Msg.result true, Msg.err (runFailedError { id := "imgX" })] ∧
      Run none ([taskA, taskX].map Prod.fst)
          [Msg.result true, Msg.err (runFailedError { id := "imgX" })] =
        RunOutcome.returned false (some e) ∧
      (afterRun okMongo demoEnv (some e) 0).2.1 =
        [DbCall.FinishJob (envGet demoEnv BazookaEnvJobID) JobStatus.JOB_ERRORED] ∧
      (∃ fatal, (afterRun okMongo demoEnv (some e) 0).2.2 = Except.error fatal) ∧
      afterRun okMongo demoEnv (some e) 0 =
        ((okMongo.FinishJob 0 (envGet demoEnv BazookaEnvJobID) JobStatus.JOB_ERRORED).1,
         [DbCall.FinishJob (envGet demoEnv BazookaEnvJobID) JobStatus.JOB_ERRORED],
         Except.error
           ((okMongo.FinishJob 0 (envGet demoEnv BazookaEnvJobID)
              JobStatus.JOB_ERRORED).2.getD e)) :=
  C2_sentinel_escalation (okDocker demoManifest demoExit) "/bazooka" demoEnv [taskA, taskX]
    okMongo 0 [Msg.result true, Msg.err (runFailedError { id := "imgX" })] (by decide)
    ⟨taskX, by decide, { id := "imgX" }, by decide⟩

/-- C3: in a non-empty batch where no file or runtime operation fails and no exit code is
42, every task observes one exit code and sends exactly one value, the result `true` when
the code is 0 and `false` otherwise; for every delivery order `Run` returns a nil error
and the disjunction of these results. -/
theorem C3_non_fatal_batch {σ : Type} (d : Docker σ) (bazookaInput : String) (env : Env)
    (tasks : List (Task σ)) (hne : tasks ≠ [])
    (hok : ∀ t ∈ tasks, (∀ ev ∈ taskTrace d bazookaInput env t, ev.failed = false) ∧
      42 ∉ exitCodes (taskTrace d bazookaInput env t)) :
    (∀ t ∈ tasks, ∃ code, exitCodes (taskTrace d bazookaInput env t) = [code] ∧
      sent (taskTrace d bazookaInput env t) = [Msg.result (decide (code = 0))]) ∧
    ∀ deliveries, deliveries.Perm (batchMsgs d bazookaInput env tasks) →
      Run none (tasks.map Prod.fst) deliveries =
        RunOutcome.returned
          (tasks.any (fun t => decide (exitCodes (taskTrace d bazookaInput env t) = [0])))
          none := by
  have htask : ∀ t ∈ tasks, ∃ code, exitCodes (taskTrace d bazookaInput env t) = [code] ∧
      sent (taskTrace d bazookaInput env t) = [Msg.result (decide (code = 0))] := by
    intro t ht
    obtain ⟨_, _, _, ⟨pre, m, hp, hs, hc⟩, _, _⟩ :=
      runContainer_trace d bazookaInput env t.1 t.2
    have hokt := hok t ht
    unfold taskTrace at hokt ⊢
    rw [hp] at hokt ⊢
    rcases hc with ⟨_, _, code, hm, _, _, _, hcode, _⟩ | ⟨e, _, hbad⟩
    · refine ⟨code, ?_, ?_⟩
      · rw [exitCodes_append, hcode, hm]
        simp [exitCodes, Event.exitCode]
      · rw [sent_of_last pre m hs, hm]
        rfl
    · exfalso
      rcases hbad with ⟨ev, hev, hf⟩ | ⟨c, hc⟩
      · have := hokt.1 ev (List.mem_append_left _ hev)
        rw [hf] at this
        cases this
      · exact hokt.2 (wait_mem_exitCodes _ c 42 (List.mem_append_left _ hc))
  refine ⟨htask, ?_⟩
  intro deliveries hperm
  have hmap : batchMsgs d bazookaInput env tasks =
      tasks.map (fun t =>
        Msg.result (decide (exitCodes (taskTrace d bazookaInput env t) = [0]))) := by
    apply batchMsgs_eq_map
    intro t ht
    obtain ⟨code, h1, h2⟩ := htask t ht
    rw [h2, h1]
    simp
  have hlen : deliveries.length = (tasks.map Prod.fst).length := by
    rw [hperm.length_eq, batchMsgs_length, List.length_map]
  have hdne : deliveries ≠ [] := by
    intro h0
    rw [h0] at hlen
    simp at hlen
    exact hne (List.length_eq_zero.mp hlen.symm)
  have hall : ∀ x ∈ deliveries, ∃ b, x = Msg.result b := by
    intro x hx
    have := hperm.mem_iff.mp hx
    rw [hmap, List.mem_map] at this
    obtain ⟨t, _, rfl⟩ := this
    exact ⟨_, rfl⟩
  unfold Run
  simp only
  rw [← hlen, fanIn_all_results deliveries false hdne hall]
  congr 1
  rw [Bool.false_or, Bool.eq_iff_iff]
  simp only [List.any_eq_true, decide_eq_true_eq]
  constructor
  · rintro ⟨x, hx, rfl⟩
    have := hperm.mem_iff.mp hx
    rw [hmap, List.mem_map] at this
    obtain ⟨t, ht, hteq⟩ := this
    refine ⟨t, ht, ?_⟩
    simpa using hteq
  · rintro ⟨t, ht, hcode⟩
    refine ⟨Msg.result true, ?_, rfl⟩
    apply hperm.mem_iff.mpr
    rw [hmap, List.mem_map]
    exact ⟨t, ht, by simp [hcode]⟩

/-- C3 on a concrete batch: image `imgA` (two services) exits 0, image `imgB` exits 7; the
failure of `imgB` is delivered first and `Run` still returns `true` with a nil error. -/
theorem C3_non_fatal_batch_witness :
    sent (taskTrace (okDocker demoManifest demoExit) "/bazooka" demoEnv taskB) =
      [Msg.result false] ∧
    Run none ([taskA, taskB].map Prod.fst) [Msg.result false, Msg.result true] =
      RunOutcome.returned true none :=
  have h := C3_non_fatal_batch (okDocker demoManifest demoExit) "/bazooka" demoEnv
    [taskA, taskB] (by decide) (by decide)
  ⟨by decide, (h.2 [Msg.result false, Msg.result true] (by decide)).trans (by decide)⟩

/-- C5: when a task sends a result, that send is its last action and nothing was sent
before; with `k` declared services the task started `k` service containers and then the
main container, and its removals are exactly: the main container, then the `k` service
containers in the order they were started, each with `Force` and `RemoveVolumes` set.
Whenever a removal fails with an error, the only value the task sends is that error. -/
theorem C5_teardown_order {σ : Type} (d : Docker σ) (bazookaInput : String) (env : Env)
    (img : BuiltImage) (s : σ) :
    (∀ b, Msg.result b ∈ sent (runContainer d bazookaInput env img s).2 →
      ∃ pre services main,
        (runContainer d bazookaInput env img s).2 = pre ++ [Event.sendResult b] ∧
        sent pre = [] ∧
        startedContainers pre = services ++ [main] ∧
        services.length =
          (declared (d.openFile s (servicesFilePath bazookaInput img)).2).length ∧
        removals pre =
          (main, { Force := true, RemoveVolumes := true }) ::
            services.map (fun c => (c, { Force := true, RemoveVolumes := true }))) ∧
    (∀ c o e, Event.remove c o (some e) ∈ (runContainer d bazookaInput env img s).2 →
      sent (runContainer d bazookaInput env img s).2 = [Msg.err e]) := by
  obtain ⟨_, _, _, ⟨pre, m, hp, hs, hc⟩, _, hrem⟩ := runContainer_trace d bazookaInput env img s
  refine ⟨?_, hrem⟩
  intro b hb
  rw [hp, sent_of_last pre m hs] at hb
  rcases hc with ⟨services, main, code, hm, _, hst, hlen, _, hrm, _, _⟩ | ⟨e, hm, _⟩
  · rw [hm] at hb
    simp [Event.msg] at hb
    refine ⟨pre, services, main, ?_, hs, hst, hlen, hrm⟩
    rw [hp, hm, hb]
  · rw [hm] at hb
    simp [Event.msg] at hb

/-- C5 on a concrete task: variant 1 declares `redis` and `mongo`; the removals are the
main container `imgA`, then `redis`, then `mongo`. -/
theorem C5_teardown_order_witness :
    Msg.result true ∈
      sent (runContainer (okDocker demoManifest demoExit) "/bazooka" demoEnv taskA.1 0).2 ∧
    removals (runContainer (okDocker demoManifest demoExit) "/bazooka" demoEnv taskA.1 0).2 =
      [({ id := "imgA" }, { Force := true, RemoveVolumes := true }),
       ({ id := "redis" }, { Force := true, RemoveVolumes := true }),
       ({ id := "mongo" }, { Force := true, RemoveVolumes := true })] ∧
    ∃ pre services main,
      (runContainer (okDocker demoManifest demoExit) "/bazooka" demoEnv taskA.1 0).2 =
        pre ++ [Event.sendResult true] ∧
      sent pre = [] ∧
      startedContainers pre = services ++ [main] ∧
      services.length =
        (declared ((okDocker demoManifest demoExit).openFile 0
          (servicesFilePath "/bazooka" taskA.1)).2).length ∧
      removals pre =
        (main, { Force := true, RemoveVolumes := true }) ::
          services.map (fun c => (c, { Force := true, RemoveVolumes := true })) :=
  ⟨by decide, by decide,
    (C5_teardown_order (okDocker demoManifest demoExit) "/bazooka" demoEnv taskA.1 0).1 true
      (by decide)⟩

/-- C7: `listServices` returns the empty list without error when the manifest does not
exist, the error for any other open failure or a scan failure, and the scanned lines in
order otherwise.  With an absent manifest the action of `runContainer` that follows the
open is the start of the main container with an empty link list, no other container start
is requested, and an error is sent only after an operation failed or the exit code 42 was
observed; with a manifest that cannot be read the task sends that error and does nothing
else. -/
theorem C7_service_manifest {σ : Type} (d : Docker σ) (bazookaInput : String) (env : Env)
    (img : BuiltImage) (s : σ) :
    (∀ e, (d.openFile s (servicesFilePath bazookaInput img)).2 = OpenResult.notExist e →
      (listServices d s (servicesFilePath bazookaInput img)).2.2 = Except.ok []) ∧
    (∀ e, (d.openFile s (servicesFilePath bazookaInput img)).2 = OpenResult.openFailed e →
      (listServices d s (servicesFilePath bazookaInput img)).2.2 = Except.error e) ∧
    (∀ lines e,
      (d.openFile s (servicesFilePath bazookaInput img)).2 = OpenResult.opened lines (some e) →
      (listServices d s (servicesFilePath bazookaInput img)).2.2 = Except.error e) ∧
    (∀ lines,
      (d.openFile s (servicesFilePath bazookaInput img)).2 = OpenResult.opened lines none →
      (listServices d s (servicesFilePath bazookaInput img)).2.2 = Except.ok lines) ∧
    (∀ e, (d.openFile s (servicesFilePath bazookaInput img)).2 = OpenResult.notExist e →
      (∃ r rest, (runContainer d bazookaInput env img s).2 =
        Event.openFile (servicesFilePath bazookaInput img) (OpenResult.notExist e) ::
          Event.run { Name := "", Image := img.Image, Links := [], Detach := true } r :: rest) ∧
      runRequests (runContainer d bazookaInput env img s).2 =
        [{ Name := "", Image := img.Image, Links := [], Detach := true }] ∧
      (∀ err, Msg.err err ∈ sent (runContainer d bazookaInput env img s).2 →
        (∃ ev ∈ (runContainer d bazookaInput env img s).2, ev.failed = true) ∨
        42 ∈ exitCodes (runContainer d bazookaInput env img s).2)) ∧
    (∀ e, (d.openFile s (servicesFilePath bazookaInput img)).2 = OpenResult.openFailed e ∨
        (∃ lines, (d.openFile s (servicesFilePath bazookaInput img)).2 =
          OpenResult.opened lines (some e)) →
      (runContainer d bazookaInput env img s).2 =
        [Event.openFile (servicesFilePath bazookaInput img)
          (d.openFile s (servicesFilePath bazookaInput img)).2, Event.sendErr e]) := by
  have hl := listServices_eq d s (servicesFilePath bazookaInput img)
  obtain ⟨_, hfail, _, ⟨pre, m, hp, hs, hc⟩, _, _⟩ := runContainer_trace d bazookaInput env img s
  refine ⟨?_, ?_, ?_, ?_, ?_, ?_⟩
  · intro e he
    rw [hl, he]; rfl
  · intro e he
    rw [hl, he]; rfl
  · intro lines e he
    rw [hl, he]; rfl
  · intro lines he
    rw [hl, he]; rfl
  · intro e he
    have hl2 : listServices d s (servicesFilePath bazookaInput img) =
        ((d.openFile s (servicesFilePath bazookaInput img)).1,
          [Event.openFile (servicesFilePath bazookaInput img) (OpenResult.notExist e)],
          Except.ok []) := by
      rw [hl, he]; rfl
    obtain ⟨m1, _, _, _⟩ := runMain_trace d img [] []
      (d.openFile s (servicesFilePath bazookaInput img)).1
    have hshape : (runContainer d bazookaInput env img s).2 =
        Event.openFile (servicesFilePath bazookaInput img) (OpenResult.notExist e) ::
          (runMain d img [] [] (d.openFile s (servicesFilePath bazookaInput img)).1).2 := by
      simp only [runContainer, hl2, startServices]
      rfl
    refine ⟨?_, ?_, ?_⟩
    · rw [hshape]
      rcases hr : d.run (d.openFile s (servicesFilePath bazookaInput img)).1 (mainOpts img [])
        with ⟨s1, e1 | c⟩
      · simp only [mainOpts] at hr
        simp only [runMain, hr]
        exact ⟨_, _, rfl⟩
      · simp only [mainOpts] at hr
        rcases hw : d.wait (d.logs s1 c img.Image) c with ⟨s3, e1 | code⟩
        · simp only [runMain, hr, hw]
          exact ⟨_, _, rfl⟩
        · simp only [runMain, hr, hw]
          exact ⟨_, _, rfl⟩
    · rw [hshape]
      have : runRequests (Event.openFile (servicesFilePath bazookaInput img)
          (OpenResult.notExist e) ::
            (runMain d img [] [] (d.openFile s (servicesFilePath bazookaInput img)).1).2) =
          runRequests (runMain d img [] []
            (d.openFile s (servicesFilePath bazookaInput img)).1).2 := by
        simp [runRequests, Event.runOpts]
      rw [this, m1]
      rfl
    · intro err herr
      rw [hp, sent_of_last pre m hs] at herr
      rcases hc with ⟨_, _, code, hm, _⟩ | ⟨e1, _, hbad⟩
      · rw [hm] at herr
        simp [Event.msg] at herr
      · rcases hbad with ⟨ev, hev, hf⟩ | ⟨c, hc⟩
        · exact Or.inl ⟨ev, by rw [hp]; exact List.mem_append_left _ hev, hf⟩
        · exact Or.inr (wait_mem_exitCodes _ c 42 (by rw [hp]; exact List.mem_append_left _ hc))
  · intro e he
    apply hfail
    rcases he with he | ⟨lines, he⟩ <;> rw [he] <;> rfl

/-- C7 on concrete tasks: variant 2 has no manifest, so its task starts only the main
container `imgB`, with no link; with a manifest that cannot be opened the task only sends
the error. -/
theorem C7_service_manifest_witness :
    (listServices (okDocker demoManifest demoExit) 0
      (servicesFilePath "/bazooka" taskB.1)).2.2 = Except.ok [] ∧
    runRequests (runContainer (okDocker demoManifest demoExit) "/bazooka" demoEnv taskB.1 0).2 =
      [{ Name := "", Image := "imgB", Links := [], Detach := true }] ∧
    (runContainer (okDocker deniedManifest demoExit) "/bazooka" demoEnv taskB.1 0).2 =
      [Event.openFile "/bazooka/work/2/services" (OpenResult.openFailed "permission denied"),
       Event.sendErr "permission denied"] :=
  have h := C7_service_manifest (okDocker demoManifest demoExit) "/bazooka" demoEnv taskB.1 0
  have h2 := C7_service_manifest (okDocker deniedManifest demoExit) "/bazooka" demoEnv taskB.1 0
  ⟨h.1 "no such file or directory" (by decide),
   (h.2.2.2.2.1 "no such file or directory" (by decide)).2.1.trans (by decide),
   (h2.2.2.2.2.2 "permission denied" (Or.inl (by decide))).trans (by decide)⟩

/-- C9, as stated, fails: with an empty batch `Run` returns when the creation of the
runtime client fails. -/
theorem C9_counterexample :
    Run (some "invalid endpoint") [] [] = RunOutcome.returned false (some "invalid endpoint") ∧
    Run (some "invalid endpoint") [] [] ≠ RunOutcome.blocked := by
  decide

/-- C9, amended: once the runtime client is created, `Run` on an empty batch never
returns: no task exists, nothing is ever delivered and the loop waits in its `select`
although `remainingRuns` is 0; so whenever `Run` returns after that point the batch has at
least one built image.  When the creation of the client fails, `Run` returns `false` with
that error at once, whatever the batch. -/
theorem C9_empty_batch_blocks {σ : Type} (d : Docker σ) (bazookaInput : String) (env : Env)
    (tasks : List (Task σ)) (deliveries : List Msg)
    (hperm : deliveries.Perm (batchMsgs d bazookaInput env tasks)) :
    (tasks = [] → deliveries = [] ∧
      Run none (tasks.map Prod.fst) deliveries = RunOutcome.blocked) ∧
    (∀ b e, Run none (tasks.map Prod.fst) deliveries = RunOutcome.returned b e →
      tasks ≠ []) ∧
    (∀ (err : GoError) (buildImages : List BuiltImage) (received : List Msg),
      Run (some err) buildImages received = RunOutcome.returned false (some err)) := by
  have hempty : tasks = [] → deliveries = [] ∧
      Run none (tasks.map Prod.fst) deliveries = RunOutcome.blocked := by
    intro ht
    subst ht
    have hd : deliveries = [] := by
      have := hperm.length_eq
      rw [batchMsgs_length] at this
      exact List.length_eq_zero.mp this
    subst hd
    exact ⟨rfl, rfl⟩
  refine ⟨hempty, ?_, fun _ _ _ => rfl⟩
  intro b e hrun ht
  rw [(hempty ht).2] at hrun
  cases hrun

/-- C9 amended, on the empty batch. -/
theorem C9_empty_batch_blocks_witness :
    Run none (([] : List (Task Nat)).map Prod.fst) [] = RunOutcome.blocked :=
  ((C9_empty_batch_blocks (okDocker demoManifest demoExit) "/bazooka" demoEnv [] []
    (by decide)).1 rfl).2

/-- C10: the container starts a task requests are a prefix of: one start per declared
service, every one with the same name `service-<project>-<job>-<variant>` whatever the
service image and its position, then the start of the main container whose link entries
all have that name before the colon; a task that sends a result requested all of them. -/
theorem C10_same_name_within_variant {σ : Type} (d : Docker σ) (bazookaInput : String)
    (env : Env) (img : BuiltImage) (s : σ) :
    (runRequests (runContainer d bazookaInput env img s).2 <+:
      (declared (d.openFile s (servicesFilePath bazookaInput img)).2).map
          (fun service =>
            { Name := serviceName env img, Image := service, Links := [], Detach := true })
        ++ [{ Name := "", Image := img.Image,
              Links := (declared (d.openFile s (servicesFilePath bazookaInput img)).2).map
                (fun service => serviceName env img ++ ":" ++ service),
              Detach := true }]) ∧
    (∀ b, Msg.result b ∈ sent (runContainer d bazookaInput env img s).2 →
      runRequests (runContainer d bazookaInput env img s).2 =
        (declared (d.openFile s (servicesFilePath bazookaInput img)).2).map
            (fun service =>
              { Name := serviceName env img, Image := service, Links := [], Detach := true })
          ++ [{ Name := "", Image := img.Image,
                Links := (declared (d.openFile s (servicesFilePath bazookaInput img)).2).map
                  (fun service => serviceName env img ++ ":" ++ service),
                Detach := true }]) := by
  obtain ⟨_, _, hpre, ⟨pre, m, hp, hs, hc⟩, _, _⟩ := runContainer_trace d bazookaInput env img s
  refine ⟨hpre, ?_⟩
  intro b hb
  rw [hp, sent_of_last pre m hs] at hb
  rcases hc with ⟨_, _, code, hm, _, _, _, _, _, hrq, _⟩ | ⟨e, hm, _⟩
  · rw [hp, runRequests_append, hrq, hm]
    simp only [runRequests, Event.runOpts, List.filterMap_cons, List.filterMap_nil,
      List.append_nil]
    rfl
  · rw [hm] at hb
    simp [Event.msg] at hb

/-- C10 on a concrete task: variant 1 declares `redis` and `mongo`; both containers are
requested under the name `service-p1-j1-1`. -/
theorem C10_same_name_within_variant_witness :
    Msg.result true ∈
      sent (runContainer (okDocker demoManifest demoExit) "/bazooka" demoEnv taskA.1 0).2 ∧
    runRequests (runContainer (okDocker demoManifest demoExit) "/bazooka" demoEnv taskA.1 0).2 =
      [{ Name := "service-p1-j1-1", Image := "redis", Links := [], Detach := true },
       { Name := "service-p1-j1-1", Image := "mongo", Links := [], Detach := true },
       { Name := "", Image := "imgA",
         Links := ["service-p1-j1-1:redis", "service-p1-j1-1:mongo"], Detach := true }] :=
  ⟨by decide,
   ((C10_same_name_within_variant (okDocker demoManifest demoExit) "/bazooka" demoEnv
      taskA.1 0).2 true (by decide)).trans (by decide)⟩

/-- C6: for one environment and two built images with different `VariantID`, the service
names differ, and so do the names of any two service containers (the starts with a
non-empty name) requested by the two tasks, whatever the service images; the name depends
on the environment only through the project and job identifiers and on the image only
through `VariantID`. -/
theorem C6_names_differ_across_variants (env : Env) (img1 img2 : BuiltImage)
    (h : img1.VariantID ≠ img2.VariantID) :
    serviceName env img1 ≠ serviceName env img2 ∧
    (∀ (σ : Type) (d : Docker σ) (bazookaInput : String) (s1 s2 : σ) (o1 o2 : RunOptions),
      o1 ∈ runRequests (runContainer d bazookaInput env img1 s1).2 →
      o2 ∈ runRequests (runContainer d bazookaInput env img2 s2).2 →
      o1.Name ≠ "" → o2.Name ≠ "" → o1.Name ≠ o2.Name) ∧
    (∀ (env2 : Env) (img3 : BuiltImage),
      envGet env2 BazookaEnvProjectID = envGet env BazookaEnvProjectID →
      envGet env2 BazookaEnvJobID = envGet env BazookaEnvJobID →
      img3.VariantID = img1.VariantID →
      serviceName env2 img3 = serviceName env img1) := by
  have hne : serviceName env img1 ≠ serviceName env img2 :=
    fun heq => h (serviceName_injective env img1 img2 heq)
  have hname : ∀ (σ : Type) (d : Docker σ) (bazookaInput : String) (img : BuiltImage) (s : σ)
      (o : RunOptions), o ∈ runRequests (runContainer d bazookaInput env img s).2 →
      o.Name ≠ "" → o.Name = serviceName env img := by
    intro σ d bazookaInput img s o ho hn
    have hpre := (runContainer_trace d bazookaInput env img s).2.2.1
    have hmem := hpre.subset ho
    rcases List.mem_append.mp hmem with hm | hm
    · rw [List.mem_map] at hm
      obtain ⟨service, _, rfl⟩ := hm
      rfl
    · rw [List.mem_singleton] at hm
      subst hm
      exact absurd rfl hn
  refine ⟨hne, ?_, ?_⟩
  · intro σ d bazookaInput s1 s2 o1 o2 h1 h2 n1 n2
    rw [hname σ d bazookaInput img1 s1 o1 h1 n1, hname σ d bazookaInput img2 s2 o2 h2 n2]
    exact hne
  · intro env2 img3 hp hj hv
    unfold serviceName
    rw [hp, hj, hv]

/-- C6 on two concrete variants that both declare the service `redis`. -/
theorem C6_names_differ_across_variants_witness :
    serviceName demoEnv { VariantID := 1, Image := "imgA" } = "service-p1-j1-1" ∧
    serviceName demoEnv { VariantID := 2, Image := "imgB" } = "service-p1-j1-2" ∧
    serviceName demoEnv { VariantID := 1, Image := "imgA" } ≠
      serviceName demoEnv { VariantID := 2, Image := "imgB" } :=
  ⟨by decide, by decide,
   (C6_names_differ_across_variants demoEnv { VariantID := 1, Image := "imgA" }
      { VariantID := 2, Image := "imgB" } (by decide)).1⟩

theorem fanIn_nil_all_results (l : List Msg) :
    ∀ (n : Int) (acc b : Bool), fanIn n acc l = RunOutcome.returned b none →
      (l.length : Int) ≤ n → ∀ m ∈ l, m.isResult = true := by
  induction l with
  | nil => intro n acc b h; simp [fanIn] at h
  | cons x rest ih =>
    intro n acc b h hlen
    cases x with
    | err e => simp [fanIn] at h
    | result r =>
      have hlen1 : ((rest.length : Nat) : Int) + 1 ≤ n := by simpa using hlen
      by_cases hz : n - 1 = 0
      · have hrest : rest = [] := by
          apply List.length_eq_zero.mp
          omega
        subst hrest
        intro m hm
        rw [List.mem_singleton] at hm
        subst hm
        rfl
      · simp only [fanIn, if_neg hz] at h
        intro m hm
        rcases List.mem_cons.mp hm with hm1 | hm1
        · subst hm1; rfl
        · exact ih (n - 1) (acc || r) b h (by omega) m hm1

theorem finishVariants_calls {μ : Type} (m : MongoConnector μ) (vs : List variantData) :
    ∀ (s : μ), ∀ call ∈ (finishVariants m vs s).2.1,
      ∃ vd ∈ vs, call =
        DbCall.FinishVariant vd.variant.ID vd.variant.Status vd.variant.Completed := by
  induction vs with
  | nil => intro s call h; simp [finishVariants] at h
  | cons vd rest ih =>
    intro s call h
    rcases hf : m.FinishVariant s vd.variant.ID vd.variant.Status vd.variant.Completed
      with ⟨s1, _ | err⟩
    · simp only [finishVariants, hf] at h
      rcases List.mem_cons.mp h with h1 | h1
      · exact ⟨vd, List.mem_cons_self _ _, h1⟩
      · obtain ⟨x, hx, hc⟩ := ih s1 call h1
        exact ⟨x, List.mem_cons_of_mem _ hx, hc⟩
    · simp only [finishVariants, hf, List.mem_singleton] at h
      exact ⟨vd, List.mem_cons_self _ _, h⟩

/-- C4: once the Runner of `main` has returned a nil error, every variant that was run
observed exactly one exit code, which is not 42, and its record holds Failed when that
code is not 0 and Success when it is 0; so every record `main` reads after `Run` has a
terminal status, every `FinishVariant` call of `main` persists Success or Failed, and the
aggregation over these variants and any Errored ones reaches its counters without "variant
without a status". -/
theorem C4_variant_status_after_run {σ μ : Type} (d : Docker σ) (bazookaInput : String)
    (env : Env) (newDocker : Option GoError) (variants : List (ReadyVariant σ))
    (deliveries : List Msg) (m : MongoConnector μ) (sm : μ) (after : List variantData)
    (hperm : deliveries.Perm
      (batchMsgs d bazookaInput env (variants.map (fun rv => rv.task))))
    (hrun : runVariants d bazookaInput env newDocker variants deliveries =
      VariantRunOutcome.finished after) :
    after = variants.map (finishedRecord d bazookaInput env) ∧
    (∀ rv ∈ variants, ∃ code,
      exitCodes (taskTrace d bazookaInput env rv.task) = [code] ∧ code ≠ 42 ∧
      (code ≠ 0 →
        (finishedRecord d bazookaInput env rv).variant.Status = JobStatus.JOB_FAILED) ∧
      (code = 0 →
        (finishedRecord d bazookaInput env rv).variant.Status = JobStatus.JOB_SUCCESS)) ∧
    (∀ vd ∈ after, vd.variant.Status = JobStatus.JOB_SUCCESS ∨
      vd.variant.Status = JobStatus.JOB_FAILED) ∧
    (∀ call ∈ (finishVariants m after sm).2.1, ∃ id completed,
      call = DbCall.FinishVariant id JobStatus.JOB_SUCCESS completed ∨
      call = DbCall.FinishVariant id JobStatus.JOB_FAILED completed) ∧
    (∀ parsedVariants : List variantData,
      (∀ vd ∈ parsedVariants, vd ∈ after ∨ vd.variant.Status = JobStatus.JOB_ERRORED) →
      ∃ counts, countStatuses parsedVariants 0 0 0 = Except.ok counts) := by
  have hlenm : (variants.map (fun rv => rv.task.1)).length = variants.length :=
    List.length_map _ _
  have hrun2 : ∃ b, fanIn ((variants.map (fun rv => rv.task.1)).length : Int) false deliveries =
      RunOutcome.returned b none ∧
      after = variants.map (finishedRecord d bazookaInput env) := by
    unfold runVariants at hrun
    cases newDocker with
    | some e => simp [Run] at hrun
    | none =>
      simp only [Run] at hrun
      rcases hf : fanIn ((variants.map (fun rv => rv.task.1)).length : Int) false deliveries
        with ⟨b, _ | e⟩ | _
      · rw [hf] at hrun
        simp only [VariantRunOutcome.finished.injEq] at hrun
        exact ⟨b, hf, hrun.symm⟩
      · rw [hf] at hrun
        simp at hrun
      · rw [hf] at hrun
        simp at hrun
  obtain ⟨b, hfan, hafter⟩ := hrun2
  have hdl : ((deliveries.length : Nat) : Int) ≤
      ((variants.map (fun rv => rv.task.1)).length : Nat) := by
    rw [hperm.length_eq, batchMsgs_length, List.length_map, List.length_map]
  have hres := fanIn_nil_all_results deliveries _ false b hfan hdl
  have hvar : ∀ rv ∈ variants, ∃ code,
      exitCodes (taskTrace d bazookaInput env rv.task) = [code] ∧ code ≠ 42 ∧
      (code ≠ 0 →
        (finishedRecord d bazookaInput env rv).variant.Status = JobStatus.JOB_FAILED) ∧
      (code = 0 →
        (finishedRecord d bazookaInput env rv).variant.Status = JobStatus.JOB_SUCCESS) := by
    intro rv hrv
    obtain ⟨_, _, _, ⟨pre, ev, hp, hs, hc⟩, _, _⟩ :=
      runContainer_trace d bazookaInput env rv.task.1 rv.task.2
    have hsent : sent (taskTrace d bazookaInput env rv.task) = (ev.msg).toList := by
      unfold taskTrace
      rw [hp, sent_of_last pre ev hs]
    rcases hc with ⟨_, _, code, hm, h42, _, _, hcode, _⟩ | ⟨e, hm, _⟩
    · have hex : exitCodes (taskTrace d bazookaInput env rv.task) = [code] := by
        unfold taskTrace
        rw [hp, exitCodes_append, hcode, hm]
        simp [exitCodes, Event.exitCode]
      refine ⟨code, hex, h42, ?_, ?_⟩
      · intro h0
        simp [finishedRecord, hex, recordOutcome, h0, h42]
      · intro h0
        simp [finishedRecord, hex, recordOutcome, h0]
    · exfalso
      have hmem : Msg.err e ∈ batchMsgs d bazookaInput env (variants.map (fun rv => rv.task)) := by
        apply mem_batchMsgs d bazookaInput env _ rv.task (List.mem_map_of_mem _ hrv)
        rw [hsent, hm]
        simp [Event.msg]
      have := hres _ (hperm.mem_iff.mpr hmem)
      simp [Msg.isResult] at this
  have hterm : ∀ vd ∈ after, vd.variant.Status = JobStatus.JOB_SUCCESS ∨
      vd.variant.Status = JobStatus.JOB_FAILED := by
    intro vd hvd
    rw [hafter, List.mem_map] at hvd
    obtain ⟨rv, hrv, rfl⟩ := hvd
    obtain ⟨code, _, _, hf, h0⟩ := hvar rv hrv
    by_cases hz : code = 0
    · exact Or.inl (h0 hz)
    · exact Or.inr (hf hz)
  refine ⟨hafter, hvar, hterm, ?_, ?_⟩
  · intro call hcall
    obtain ⟨vd, hvd, hc⟩ := finishVariants_calls m after sm call hcall
    rcases hterm vd hvd with h | h
    · exact ⟨vd.variant.ID, vd.variant.Completed, Or.inl (by rw [hc, h])⟩
    · exact ⟨vd.variant.ID, vd.variant.Completed, Or.inr (by rw [hc, h])⟩
  · intro parsedVariants hp
    refine ⟨_, countStatuses_terminal parsedVariants 0 0 0 ?_⟩
    intro vd hvd
    rcases hp vd hvd with h | h
    · rcases hterm vd h with h1 | h1
      · exact Or.inr (Or.inl h1)
      · exact Or.inr (Or.inr h1)
    · exact Or.inl h

/-- C4 on a concrete batch: variant `a` exits 0 and variant `b` exits 7; `Run` returns nil
and the records hold Success and Failed, with the completion times of the two tasks. -/
theorem C4_variant_status_after_run_witness :
    runVariants (okDocker demoManifest demoExit) "/bazooka" demoEnv none [readyA, readyB]
        [Msg.result false, Msg.result true] =
      VariantRunOutcome.finished
        [{ variant := { ID := "a", Status := JobStatus.JOB_SUCCESS, Completed := 10 } },
         { variant := { ID := "b", Status := JobStatus.JOB_FAILED, Completed := 20 } }] ∧
    (∀ vd ∈ [({ variant := { ID := "a", Status := JobStatus.JOB_SUCCESS, Completed := 10 } }
                : variantData),
             { variant := { ID := "b", Status := JobStatus.JOB_FAILED, Completed := 20 } }],
      vd.variant.Status = JobStatus.JOB_SUCCESS ∨ vd.variant.Status = JobStatus.JOB_FAILED) :=
  ⟨by decide,
   (C4_variant_status_after_run (okDocker demoManifest demoExit) "/bazooka" demoEnv none
      [readyA, readyB] [Msg.result false, Msg.result true] okMongo 0
      [{ variant := { ID := "a", Status := JobStatus.JOB_SUCCESS, Completed := 10 } },
       { variant := { ID := "b", Status := JobStatus.JOB_FAILED, Completed := 20 } }]
      (by decide) (by decide)).2.2.1⟩

end Bazooka
